import Mathlib

/-!
Verification development for the span-cli coding agent.

Shallow embedding of the core components of the repository:
  * `FileOps`   — `span/tools/file_ops.py` (`ApplyPatchTool`: diff validation,
                  reverse-diff generation, the `execute` method with the
                  external `patch` subprocess as an oracle).
  * `PatchSem`  — semantics of the external GNU `patch` utility (black box
                  subprocess in the source; modelled from its observed
                  behaviour: a unified hunk whose body disagrees with the
                  declared `@@ -a,b +c,d @@` line counts is rejected as a
                  malformed patch, otherwise hunks are applied at their
                  stated positions when the old image matches exactly).
  * `RepoMapM`  — `span/context/repo_map.py` (`find_affected_tests` over the
                  dependency table).
  * `VerifierM` — `span/core/verifier.py` (staged verification with the
                  lint/test subprocess outcomes as oracles).
  * `ConfigM`   — `span/config.py` and the `Verifier` construction in
                  `span/cli.py`.
  * `AgentM`    — `span/core/agent.py` (`_check_limits`, `_execute_loop` as a
                  transition system over an abstract script of model
                  responses, and `_execute_patch_with_verification`).

Python strings are embedded as `String`/`List Char`; `str.split("\n")` is
`splitLines`; Python dicts/sets that are only read pointwise are embedded as
functions with explicit update.  All definitions are executable.
-/

namespace SpanCLI

/-! ## Generic sequence utilities -/

/-- Boolean prefix test on lists (`str.startswith` in Python). -/
def startsWith {α : Type} [DecidableEq α] : List α → List α → Bool
  | [], _ => true
  | _ :: _, [] => false
  | a :: as, b :: bs => decide (a = b) && startsWith as bs

/-- Boolean substring test on lists (`needle in hay` for Python strings). -/
def containsSeq {α : Type} [DecidableEq α] (needle : List α) : List α → Bool
  | [] => startsWith needle []
  | a :: rest => startsWith needle (a :: rest) || containsSeq needle rest

/-- Python `s.split("\n")`: split a character sequence at newline characters,
keeping empty pieces (`n` separators yield `n + 1` pieces). -/
def splitLines : List Char → List (List Char)
  | [] => [[]]
  | c :: rest =>
    if c = '\n' then [] :: splitLines rest
    else
      match splitLines rest with
      | [] => [[c]]
      | l :: ls => (c :: l) :: ls

/-- Python `"\n".join(lines)` on character sequences. -/
def joinLines (ls : List (List Char)) : List Char := List.intercalate ['\n'] ls

/-! ## FileOps: the diff validator of `ApplyPatchTool` (`file_ops.py`) -/

namespace FileOps

/-- One line of text: a character sequence without `'\n'`. -/
abbrev Line := List Char

/-- Python `\s` on ASCII input: space, tab, newline, carriage return,
vertical tab, form feed. -/
def isPySpace (c : Char) : Bool :=
  (c == ' ') || (c == '\t') || (c == '\n') || (c == '\r') ||
    (c.toNat == 11) || (c.toNat == 12)

/-- Python `str.strip()`. -/
def pyStrip (s : List Char) : List Char :=
  ((s.dropWhile isPySpace).reverse.dropWhile isPySpace).reverse

/-- The characters of the current line: everything up to the next `'\n'`
(`.` in a Python regex never matches a newline). -/
def restOfLine (l : List Char) : List Char := l.takeWhile (fun c => c ≠ '\n')

/-- Model of `re.search` for a pattern of the form `lit₁.*lit₂`: some occurrence of
`lit₁` is followed, on the same line, by an occurrence of `lit₂`. -/
def matchAfter (lit₁ lit₂ : List Char) : List Char → Bool
  | [] => false
  | c :: rest =>
    (startsWith lit₁ (c :: rest) &&
      containsSeq lit₂ (restOfLine ((c :: rest).drop lit₁.length))) ||
    matchAfter lit₁ lit₂ rest

/-- Match of `pass\s*#.*placeholder` anchored at the head of the input
(`\s` may cross newlines, `.` may not). -/
def passAt (l : List Char) : Bool :=
  startsWith "pass".data l &&
    (match (l.drop 4).dropWhile isPySpace with
     | '#' :: t => containsSeq "placeholder".data (restOfLine t)
     | _ => false)

/-- Model of `re.search` for `pass\s*#.*placeholder`. -/
def matchPass : List Char → Bool
  | [] => false
  | c :: rest => passAt (c :: rest) || matchPass rest

/-- Model of `ApplyPatchTool.LAZY_PATTERNS`: case-insensitive search for
`\.\.\..*rest of`, `\.\.\..*existing`, `\.\.\..*unchanged`, `#.*TODO`,
`//.*TODO`, `pass\s*#.*placeholder` (ASCII case folding). -/
def hasLazyPattern (p : List Char) : Bool :=
  let low := p.map Char.toLower
  matchAfter "...".data "rest of".data low ||
  matchAfter "...".data "existing".data low ||
  matchAfter "...".data "unchanged".data low ||
  matchAfter "#".data "todo".data low ||
  matchAfter "//".data "todo".data low ||
  matchPass low

/-- The loop body of `ApplyPatchTool._extract_hunks`: `cur` is the hunk being
accumulated, `inHunk` the `in_hunk` flag. -/
def extractLoop : List Line → List Line → Bool → List (List Line)
  | [], cur, _ => if cur.isEmpty then [] else [cur]
  | l :: rest, cur, inHunk =>
    if startsWith "@@".data l then
      if cur.isEmpty then extractLoop rest [l] true
      else cur :: extractLoop rest [l] true
    else if inHunk then
      if startsWith "---".data l || startsWith "+++".data l ||
          startsWith "diff".data l then
        if cur.isEmpty then extractLoop rest [] false
        else cur :: extractLoop rest [] false
      else extractLoop rest (cur ++ [l]) true
    else extractLoop rest cur inHunk

/-- Model of `ApplyPatchTool._extract_hunks` on the line list of the patch text. -/
def extract_hunks (lines : List Line) : List (List Line) :=
  extractLoop lines [] false

/-- Model of `ApplyPatchTool._is_well_formed_hunk`: the first line starts with `@@`,
every later nonempty line starts with space, `+`, `-` or `\`. -/
def is_well_formed_hunk : List Line → Bool
  | [] => false
  | header :: body =>
    startsWith "@@".data header &&
      body.all fun l =>
        match l with
        | [] => true
        | c :: _ => (c == ' ') || (c == '+') || (c == '-') || (c == '\\')

/-- Accumulator of the context-counting loop in
`ApplyPatchTool._has_sufficient_context`. -/
structure CtxInfo where
  context_before : Nat
  context_after : Nat
  seen_change : Bool
  has_deletions : Bool
deriving DecidableEq

/-- One iteration of the context-counting loop. -/
def ctxStep (acc : CtxInfo) (l : Line) : CtxInfo :=
  if startsWith " ".data l then
    if acc.seen_change then { acc with context_after := acc.context_after + 1 }
    else { acc with context_before := acc.context_before + 1 }
  else if startsWith "-".data l then
    { acc with seen_change := true, has_deletions := true, context_after := 0 }
  else if startsWith "+".data l then
    { acc with seen_change := true, context_after := 0 }
  else acc

/-- The context counters computed over the body lines of a hunk. -/
def context_counts (body : List Line) : CtxInfo :=
  body.foldl ctxStep ⟨0, 0, false, false⟩

/-- Model of `ApplyPatchTool._has_sufficient_context`. -/
def has_sufficient_context : List Line → Bool
  | [] => false
  | header :: body =>
    if startsWith "@@".data header &&
        (containsSeq "-0,0".data header || containsSeq "@@ -0,0".data header)
    then true
    else
      let acc := context_counts body
      if 3 ≤ acc.context_before || 3 ≤ acc.context_after then true
      else if acc.has_deletions = false && 1 ≤ acc.context_before then true
      else false

/-- The per-hunk loop of `ApplyPatchTool._validate_patch_with_reason`. -/
def checkHunks : List (List Line) → Option String
  | [] => none
  | h :: hs =>
    if is_well_formed_hunk h = false then
      some "lines must start with space, +, or -"
    else if has_sufficient_context h = false then
      some "insufficient context lines"
    else checkHunks hs

/-- Model of `ApplyPatchTool._validate_patch_with_reason`: `none` means the patch is
valid, `some r` is the rejection reason. -/
def validate_patch_with_reason (patch : String) : Option String :=
  let p := patch.data
  if hasLazyPattern p then some "contains lazy placeholder pattern"
  else if containsSeq "@@".data p = false then some "missing @@ hunk header"
  else if (extract_hunks (splitLines p)).isEmpty then some "no valid hunks found"
  else checkHunks (extract_hunks (splitLines p))

/-- One line of the loop body of `ApplyPatchTool._generate_reverse_diff`:
drop `---`/`+++`/`diff `/`index ` lines, keep `@@` headers verbatim, swap the
`+`/`-` prefixes, keep context lines; any other line is dropped. -/
def revLine (l : Line) : Option Line :=
  if startsWith "--- ".data l then none
  else if startsWith "+++ ".data l then none
  else if startsWith "diff ".data l then none
  else if startsWith "index ".data l then none
  else if startsWith "@@".data l then some l
  else if startsWith "+".data l then some ('-' :: l.tail)
  else if startsWith "-".data l then some ('+' :: l.tail)
  else if startsWith " ".data l then some l
  else none

/-- Model of `ApplyPatchTool._generate_reverse_diff` on the line list of the forward
patch (the `file_path.exists()` guard lives in `applyPatchExec`). -/
def generate_reverse_diff (fp : String) (patchLines : List Line) : List Line :=
  ("--- ".data ++ fp.data) :: ("+++ ".data ++ fp.data) ::
    patchLines.filterMap revLine

/-- String form of the generated reverse diff. -/
def generate_reverse_diff_str (fp patch : String) : String :=
  String.mk (joinLines (generate_reverse_diff fp (splitLines patch.data)))

/-- Model of `ApplyPatchResult` of `span/models/tools.py` (the fields `execute`
uses). -/
structure ApplyPatchResult where
  success : Bool
  output : String
  error : Option String := none
  file_path : Option String := none
  reverse_diff : Option String := none
deriving DecidableEq

/-- Outcome of the `subprocess.run(["patch", ...])` call: the binary may be
missing, or it runs with a return code, stdout and stderr. -/
inductive PatchRun
  | notFound
  | ran (returncode : Int) (stdoutStr stderrStr : String)
deriving DecidableEq

/-- Model of `len(file_path.read_text().splitlines())` for ASCII text
(`ApplyPatchTool._safe_line_count` on an existing readable file). -/
def pyLineCount (c : String) : Nat :=
  let ls := splitLines c.data
  if ls.getLast? = some [] then ls.length - 1 else ls.length

/-- Model of `ApplyPatchTool.execute`: validation, synthetic `---`/`+++` headers,
reverse-diff generation before application, then the `patch` subprocess
(oracle `run`).  `fileContent` is the on-disk content of `path` (`none` if
the file does not exist).  The second component records whether the
subprocess was invoked. -/
def applyPatchExec (path diff : String) (fileContent : Option String)
    (run : PatchRun) : ApplyPatchResult × Bool :=
  match validate_patch_with_reason diff with
  | some reason =>
    ({ success := false, output := "",
       error := some ("Invalid patch format: " ++ reason ++
         ". Use proper unified diff with @@ hunk headers and +/- line prefixes.") },
     false)
  | none =>
    let stripped := pyStrip diff.data
    let full_patch :=
      if startsWith "---".data stripped || startsWith "diff --git".data stripped
      then diff
      else "--- " ++ path ++ "\n+++ " ++ path ++ "\n" ++ diff
    let reverse : Option String :=
      match fileContent with
      | none => none
      | some _ => some (generate_reverse_diff_str path full_patch)
    match run with
    | .notFound =>
      ({ success := false, output := "",
         error := some "'patch' command not found. Please install patch utility." },
       true)
    | .ran rc stdoutStr stderrStr =>
      if rc = 0 then
        ({ success := true, output := "Patch applied successfully to " ++ path,
           file_path := some path, reverse_diff := reverse }, true)
      else
        let error_output := if stderrStr = "" then "Unknown error" else stderrStr
        let hint :=
          match fileContent with
          | some c =>
            if containsSeq "No such line".data stdoutStr.data then
              " (file has " ++ toString (pyLineCount c) ++ " lines)"
            else ""
          | none => ""
        ({ success := false,
           output := String.mk (pyStrip (error_output ++ "\n" ++ stdoutStr).data),
           error := some ("Patch failed" ++ hint ++ ": " ++ error_output) },
         true)

end FileOps

/-! ## PatchSem: semantics of the external GNU `patch` utility

The repository shells out to `patch -pN` and treats it as a black box.  The
model below reflects the documented and observed behaviour of GNU patch on
clean input: a unified hunk declares `@@ -a,b +c,d @@` and its body must
supply exactly `b` old-side lines (context and `-`) and exactly `d` new-side
lines (context and `+`); a body line that would exceed either count makes
the whole patch malformed and nothing is applied (observed: `patch` exits
with status 2 and `malformed patch at line N`).  A parsed hunk applies when
the old image matches the file at the stated position. -/

namespace PatchSem

open FileOps (Line)

/-- One body line of a parsed hunk. -/
inductive HLine
  | ctx (s : Line)
  | add (s : Line)
  | del (s : Line)
deriving DecidableEq

/-- A parsed unified hunk. -/
structure Hunk where
  oldStart : Nat
  oldLen : Nat
  newStart : Nat
  newLen : Nat
  body : List HLine
deriving DecidableEq

/-- The old image of a hunk: context and deletion lines. -/
def oldImage (h : Hunk) : List Line :=
  h.body.filterMap fun x =>
    match x with
    | .ctx s => some s
    | .del s => some s
    | .add _ => none

/-- The new image of a hunk: context and addition lines. -/
def newImage (h : Hunk) : List Line :=
  h.body.filterMap fun x =>
    match x with
    | .ctx s => some s
    | .del _ => none
    | .add s => some s

/-- Parse a decimal number at the head of a line. -/
def parseNatAt (l : List Char) : Option (Nat × List Char) :=
  let ds := l.takeWhile Char.isDigit
  if ds.isEmpty then none
  else some (ds.foldl (fun n c => n * 10 + (c.toNat - 48)) 0,
    l.dropWhile Char.isDigit)

/-- Parse a `@@ -a,b +c,d @@` hunk header (a missing count defaults to 1). -/
def parseHeader (l : Line) : Option (Nat × Nat × Nat × Nat) :=
  if startsWith "@@ -".data l then do
    let (a, r₁) ← parseNatAt (l.drop 4)
    let (b, r₂) ←
      match r₁ with
      | ',' :: t => parseNatAt t
      | _ => some (1, r₁)
    match r₂ with
    | ' ' :: '+' :: r₃ => do
      let (c, r₄) ← parseNatAt r₃
      let (d, r₅) ←
        match r₄ with
        | ',' :: t => parseNatAt t
        | _ => some (1, r₄)
      if startsWith " @@".data r₅ then some (a, b, c, d) else none
    | _ => none
  else none

/-- A hunk currently being read: header fields, body read so far (reversed),
and the numbers of old-side and new-side lines still owed. -/
structure OpenHunk where
  oStart : Nat
  oLen : Nat
  nStart : Nat
  nLen : Nat
  bodyRev : List HLine
  oldNeed : Nat
  newNeed : Nat

/-- Parser state: completed hunks (reversed) and the open hunk, if any. -/
structure PSt where
  hunksRev : List Hunk
  cur : Option OpenHunk

/-- Close a fully-read hunk. -/
def closeHunk (oh : OpenHunk) : Hunk :=
  ⟨oh.oStart, oh.oLen, oh.nStart, oh.nLen, oh.bodyRev.reverse⟩

/-- Handle a line outside any hunk body: file headers and blank lines are
skipped, a `@@` line opens a hunk, anything else is garbage. -/
def topLevel (st : PSt) (l : Line) : Option PSt :=
  if l.isEmpty then some st
  else if startsWith "---".data l || startsWith "+++".data l ||
      startsWith "diff ".data l || startsWith "index ".data l then some st
  else
    match parseHeader l with
    | some (a, b, c, d) => some { st with cur := some ⟨a, b, c, d, [], b, d⟩ }
    | none => none

/-- Read one body line of the open hunk; a line that would exceed the
declared counts makes the patch malformed. -/
def bodyLine (st : PSt) (oh : OpenHunk) (l : Line) : Option PSt :=
  match l with
  | ' ' :: s =>
    match oh.oldNeed, oh.newNeed with
    | o + 1, n + 1 =>
      some { st with cur := some { oh with
        bodyRev := HLine.ctx s :: oh.bodyRev, oldNeed := o, newNeed := n } }
    | _, _ => none
  | '-' :: s =>
    match oh.oldNeed with
    | o + 1 =>
      some { st with cur := some { oh with
        bodyRev := HLine.del s :: oh.bodyRev, oldNeed := o } }
    | 0 => none
  | '+' :: s =>
    match oh.newNeed with
    | n + 1 =>
      some { st with cur := some { oh with
        bodyRev := HLine.add s :: oh.bodyRev, newNeed := n } }
    | 0 => none
  | _ => none

/-- Process one line of the patch text. -/
def parseStep (l : Line) (st : PSt) : Option PSt :=
  match st.cur with
  | some oh =>
    if oh.oldNeed = 0 ∧ oh.newNeed = 0 then
      topLevel { hunksRev := closeHunk oh :: st.hunksRev, cur := none } l
    else bodyLine st oh l
  | none => topLevel st l

/-- Parse a unified diff into hunks; `none` is a malformed patch. -/
def parseHunks (lines : List Line) : Option (List Hunk) :=
  (lines.foldl (fun o l => o.bind (parseStep l)) (some ⟨[], none⟩)).bind
    fun st =>
      match st.cur with
      | none => some st.hunksRev.reverse
      | some oh =>
        if oh.oldNeed = 0 ∧ oh.newNeed = 0 then
          some (closeHunk oh :: st.hunksRev).reverse
        else none

/-- Apply parsed hunks in order; `pos` is the number of lines of the
original file already consumed.  Each hunk must match its old image exactly
at the position stated in its header. -/
def applyHunks : List Hunk → Nat → List Line → Option (List Line)
  | [], _, rest => some rest
  | h :: hs, pos, rest =>
    let startIdx := h.oldStart - 1
    if pos ≤ startIdx ∧ startIdx - pos ≤ rest.length then
      let pre := rest.take (startIdx - pos)
      let rest₁ := rest.drop (startIdx - pos)
      let oi := oldImage h
      if startsWith oi rest₁ then
        match applyHunks hs (startIdx + oi.length) (rest₁.drop oi.length) with
        | some out => some (pre ++ newImage h ++ out)
        | none => none
      else none
    else none

/-- Apply a unified diff text to file content. -/
def applyUnified (content : List Char) (diffLines : List Line) :
    Option (List Char) :=
  (parseHunks diffLines).bind fun hs =>
    (applyHunks hs 0 (splitLines content)).map joinLines

/-- Apply a unified diff (as produced or consumed by `ApplyPatchTool`) to
file content, both given as strings. -/
def applyUnifiedStr (content patchText : String) : Option String :=
  (applyUnified content.data (splitLines patchText.data)).map String.mk

end PatchSem

/-! ## RepoMapM: `RepoMap.find_affected_tests` (`repo_map.py`) -/

namespace RepoMapM

/-- Code-point lexicographic comparison of character sequences — the order
Python's `sorted` uses on `str`. -/
def lexLe : List Char → List Char → Bool
  | [], _ => true
  | _ :: _, [] => false
  | a :: as, b :: bs =>
    if a.toNat < b.toNat then true
    else if b.toNat < a.toNat then false
    else lexLe as bs

/-- Model of `lexLe` on strings, as a relation. -/
def strLe (a b : String) : Prop := lexLe a.data b.data = true

instance : DecidableRel strLe := fun a b =>
  inferInstanceAs (Decidable (lexLe a.data b.data = true))

instance : IsTotal String strLe := ⟨fun s t => by
  show lexLe s.data t.data = true ∨ lexLe t.data s.data = true
  generalize s.data = a
  generalize t.data = b
  induction a generalizing b with
  | nil => left; rfl
  | cons x as ih =>
    cases b with
    | nil => right; rfl
    | cons y bs =>
      by_cases hxy : x.toNat < y.toNat
      · left; simp [lexLe, hxy]
      · by_cases hyx : y.toNat < x.toNat
        · right; simp [lexLe, hyx]
        · rcases ih bs with h | h
          · left; simp [lexLe, hxy, hyx, h]
          · right; simp [lexLe, hxy, hyx, h]⟩

instance : IsTrans String strLe := ⟨fun s t u => by
  show lexLe s.data t.data = true → lexLe t.data u.data = true →
    lexLe s.data u.data = true
  generalize s.data = a
  generalize t.data = b
  generalize u.data = c
  induction a generalizing b c with
  | nil => intro _ _; rfl
  | cons x as ih =>
    intro hab hbc
    cases b with
    | nil => simp [lexLe] at hab
    | cons y bs =>
      cases c with
      | nil => simp [lexLe] at hbc
      | cons z cs =>
        by_cases hxy : x.toNat < y.toNat
        · by_cases hyz : y.toNat < z.toNat
          · simp [lexLe, show x.toNat < z.toNat by omega]
          · by_cases hzy : z.toNat < y.toNat
            · simp [lexLe, hyz, hzy] at hbc
            · simp [lexLe, show x.toNat < z.toNat by omega]
        · by_cases hyx : y.toNat < x.toNat
          · simp [lexLe, hxy, hyx] at hab
          · simp only [lexLe, if_neg hxy, if_neg hyx] at hab
            by_cases hyz : y.toNat < z.toNat
            · simp [lexLe, show x.toNat < z.toNat by omega]
            · by_cases hzy : z.toNat < y.toNat
              · simp [lexLe, hyz, hzy] at hbc
              · simp only [lexLe, if_neg hyz, if_neg hzy] at hbc
                have hxz : ¬x.toNat < z.toNat := by omega
                have hzx : ¬z.toNat < x.toNat := by omega
                simp [lexLe, hxz, hzx, ih bs cs hab hbc]⟩

/-- SQLite `LIKE` pattern matching, as the `source_file LIKE ?` condition of
the `find_affected_tests` query evaluates it with its default settings
(no `ESCAPE` clause, `case_sensitive_like` off): `%` in the pattern matches
any sequence of characters including the empty one, `_` matches exactly one
character, and every other character matches itself up to ASCII case
(SQLite's default `LIKE` folds only `A`–`Z`/`a`–`z`, which is exactly what
`Char.toLower` folds).  Verified against sqlite3 empirically: pattern
`%tests/%` matches `Tests/test_auth.py`, and `%test_%` matches
`test-foo.py`. -/
def likeMatch : List Char → List Char → Bool
  | [], s => s.isEmpty
  | '%' :: p, s => s.tails.any fun t => likeMatch p t
  | '_' :: p, s =>
    match s with
    | [] => false
    | _ :: s' => likeMatch p s'
  | a :: p, s =>
    match s with
    | [] => false
    | c :: s' => (a.toLower == c.toLower) && likeMatch p s'

/-- Model of `RepoMap.find_affected_tests`.  `deps` is the `dependencies` table as a
list of `(source_file, target_file)` rows.  The SQL query selects the
distinct sources of edges whose target is a modified file and whose source
matches some test pattern under SQLite `LIKE` with the bound parameter
`"%" + pattern + "%"` (ASCII case-insensitive, `%`/`_` in the pattern acting
as wildcards); independently, the Python loop adds every modified file that
contains a pattern as a literal case-sensitive substring (`pattern in
modified_file`); the result is the Python `sorted` of that set.  When
`test_patterns` is empty and `modified_files` is not, the generated SQL ends
in `AND ()` and sqlite3 raises `OperationalError` (verified empirically) —
the theorems therefore assume a non-empty `test_patterns`. -/
def find_affected_tests (deps : List (String × String))
    (modified_files test_patterns : List String) : List String :=
  if modified_files.isEmpty then []
  else
    let fromDeps :=
      (deps.filter fun e =>
        decide (e.2 ∈ modified_files) &&
          test_patterns.any fun p =>
            likeMatch ('%' :: (p.data ++ ['%'])) e.1.data).map Prod.fst
    let selfTests :=
      modified_files.filter fun m =>
        test_patterns.any fun p => containsSeq p.data m.data
    List.insertionSort strLe (fromDeps ++ selfTests).dedup

end RepoMapM

/-! ## VerifierM: the staged verifier (`verifier.py`) -/

namespace VerifierM

/-- Model of `VerificationResult` of `verifier.py`. -/
structure VerificationResult where
  passed : Bool
  errors : List String
deriving DecidableEq

/-- Outcome of one external tool subprocess (`ruff` / `pytest`): the binary
may be missing (`FileNotFoundError`), the call may time out, or it runs with
a return code, stdout and stderr. -/
inductive RunOutcome
  | notFound
  | timedOut
  | ran (returncode : Int) (stdoutStr stderrStr : String)
deriving DecidableEq

/-- Outcome of the in-process `ast.parse` in `Verifier.check_syntax` (named `syntax_check` here). -/
inductive SyntaxOutcome
  | ok
  | syntaxErr (lineno : Nat) (msg : String)
  | missingFile
deriving DecidableEq

/-- Model of `Verifier.check_syntax` (named `syntax_check` here). -/
def syntax_check (file : String) (o : SyntaxOutcome) : VerificationResult :=
  match o with
  | .ok => ⟨true, []⟩
  | .syntaxErr lineno msg =>
    ⟨false, ["Syntax error in " ++ file ++ ":" ++ toString lineno ++ ": " ++ msg]⟩
  | .missingFile => ⟨false, ["File not found: " ++ file]⟩

/-- Model of `Verifier.check_lint` (the `ruff check` subprocess is the oracle). -/
def check_lint (o : RunOutcome) : VerificationResult :=
  match o with
  | .ran rc stdoutStr _ =>
    if rc = 0 then ⟨true, []⟩ else ⟨false, ["Lint errors:\n" ++ stdoutStr]⟩
  | .timedOut => ⟨false, ["Linting timed out after 30 seconds"]⟩
  | .notFound => ⟨false, ["ruff not found in PATH"]⟩

/-- The constructor arguments of `Verifier` (`verifier.py` lines 15–24): the
repo map, `test_patterns` and `fallback_tests` — nothing else. -/
structure VerifierCfg where
  test_patterns : List String
  fallback_tests : List String
deriving DecidableEq

/-- Trace of externally visible verifier activity. -/
inductive VEvent
  | stageSyntax
  | stageLint
  | pytestRun (cmd : List String)
deriving DecidableEq

/-- Model of `Verifier.check_tests` with `deps` standing for the repo map's
dependency table and the `pytest` subprocess as the oracle.  Returns the
result together with the subprocess invocations performed. -/
def check_tests (cfg : VerifierCfg) (deps : List (String × String))
    (modified_files : List String) (full : Bool) (o : RunOutcome) :
    VerificationResult × List VEvent :=
  let test_files :=
    if full then []
    else
      let t := RepoMapM.find_affected_tests deps modified_files cfg.test_patterns
      if t.isEmpty && !cfg.fallback_tests.isEmpty then cfg.fallback_tests else t
  if test_files.isEmpty && !full then (⟨true, []⟩, [])
  else
    let cmd := if full then ["pytest", "-q"] else ["pytest", "-q"] ++ test_files
    match o with
    | .ran rc stdoutStr stderrStr =>
      if rc = 0 then (⟨true, []⟩, [.pytestRun cmd])
      else
        (⟨false, ["Test failures:\n" ++ stdoutStr ++ "\n" ++ stderrStr]⟩,
         [.pytestRun cmd])
    | .timedOut => (⟨false, ["Tests timed out after 120 seconds"]⟩, [.pytestRun cmd])
    | .notFound => (⟨false, ["pytest not found in PATH"]⟩, [.pytestRun cmd])

/-- Model of `Verifier.verify_patch`: syntax, then lint, then targeted tests, each
stage short-circuiting on failure.  `sy`, `li`, `te` are the oracles for the
three stage backends. -/
def verify_patch (cfg : VerifierCfg) (deps : List (String × String))
    (modified_file : String) (sy : SyntaxOutcome) (li te : RunOutcome) :
    VerificationResult × List VEvent :=
  let syntax_result := syntax_check modified_file sy
  if syntax_result.passed = false then (syntax_result, [.stageSyntax])
  else
    let lint_result := check_lint li
    if lint_result.passed = false then (lint_result, [.stageSyntax, .stageLint])
    else
      let test_result := check_tests cfg deps [modified_file] false te
      if test_result.1.passed = false then
        (test_result.1, [.stageSyntax, .stageLint] ++ test_result.2)
      else (⟨true, []⟩, [.stageSyntax, .stageLint] ++ test_result.2)

end VerifierM

/-! ## ConfigM: `config.py` and the verifier construction in `cli.py` -/

namespace ConfigM

/-- Model of `VerificationConfig` of `config.py` with its defaults. -/
structure VerificationConfig where
  syntaxCheck : Bool := true
  ruff : Bool := true
  mypy : Bool := false
  mypy_full : Bool := true
  pytest : Bool := true
  pytest_args : List String := ["-x", "--tb=short"]
deriving DecidableEq

/-- Model of `Config` of `config.py` with its defaults. -/
structure Config where
  model : String := "claude-sonnet-4-20250514"
  api_key_env : String := "ANTHROPIC_API_KEY"
  ignore : List String := [".git", "__pycache__", ".venv", "node_modules", ".span"]
  verification : VerificationConfig := {}
  test_patterns : List String := ["tests/"]
  fallback_tests : List String := []
  max_steps : Nat := 15
  max_retries_per_step : Nat := 3
deriving DecidableEq

/-- The `Verifier(...)` construction in `cli.py` `run_task` (lines 49–53):
only `test_patterns` and `fallback_tests` are taken from the config. -/
def mkVerifier (c : Config) : VerifierM.VerifierCfg :=
  ⟨c.test_patterns, c.fallback_tests⟩

end ConfigM

/-! ## AgentM: the agent engine (`agent.py`) -/

namespace AgentM

open FileOps (ApplyPatchResult PatchRun applyPatchExec)
open VerifierM (VerificationResult)

/-- Model of `ChangeOp` of `agent.py`. -/
structure ChangeOp where
  path : String
  forward_diff : String
  reverse_diff : String
  timestamp : Nat
  step_id : Nat
deriving DecidableEq

/-- The parts of `AgentState` read and written by
`_execute_patch_with_verification`.  `retry_count` embeds the Python dict
with default 0 (`dict.get(path, 0)` / `dict.pop`), `created_files` the
Python set, both as functions. -/
structure PatchSt where
  changes : List ChangeOp
  retry_count : String → Nat
  created_files : String → Bool
  last_errors : List String
  patch_attempt_count : Nat

/-- Pointwise update of the retry-count dict. -/
def updRetry (f : String → Nat) (p : String) (v : Nat) : String → Nat :=
  fun q => if q = p then v else f q

/-- Insertion into the `created_files` set. -/
def addCreated (f : String → Bool) (p : String) : String → Bool :=
  fun q => if q = p then true else f q

/-- Externally visible events of one `_execute_patch_with_verification`
call: entry into `ApplyPatchTool.execute` (the DiffEngine), the `patch`
subprocess, and the `revert_failed` event appended to the event stream. -/
inductive AgentEv
  | toolExec (path diff : String)
  | subprocRun (path : String)
  | revertFailedEv (path : String)
deriving DecidableEq

/-- The terminal message returned once `retry_count[path]` has reached the
per-path limit. -/
def terminal_retry_msg (maxRetries : Nat) (path : String) : String :=
  "ERROR: Exceeded " ++ toString maxRetries ++ " retry attempts for " ++ path ++
    ". Stop trying to patch this file and either try a completely different " ++
    "approach or report that you cannot complete the task."

/-- The success message returned for a verified patch. -/
def success_msg (path : String) : String :=
  "SUCCESS: Patch to " ++ path ++ " applied and verified. Task complete - " ++
    "stop now and let the user review the changes."

/-- Model of `Agent._execute_patch_with_verification` with the two
`ApplyPatchTool.execute` calls factored out: `ar` is the result of the
forward apply, `revertExec rd` the result of applying the reverse diff `rd`.
Returns the new state, the text returned to the model, and the event
trace. -/
def exec_patch_core (maxRetries : Nat) (st : PatchSt) (path diff : String)
    (isNewFile : Bool) (ar : ApplyPatchResult × Bool)
    (verification : VerificationResult)
    (revertExec : String → ApplyPatchResult × Bool) (now : Nat) :
    PatchSt × String × List AgentEv :=
  let retry_count := st.retry_count path
  if maxRetries ≤ retry_count then
    (st, terminal_retry_msg maxRetries path, [])
  else
    let apply_result := ar.1
    let evs₀ := AgentEv.toolExec path diff ::
      (if ar.2 then [AgentEv.subprocRun path] else [])
    if apply_result.success = false then
      ({ st with retry_count := updRetry st.retry_count path (retry_count + 1) },
       "Error: " ++ (apply_result.error.getD "None"), evs₀)
    else if verification.passed then
      match apply_result.reverse_diff with
      | none => (st, "Error: Failed to generate reverse diff", evs₀)
      | some rd =>
        ({ st with
            created_files :=
              if isNewFile then addCreated st.created_files path
              else st.created_files,
            retry_count := updRetry st.retry_count path 0,
            changes := st.changes ++
              [⟨path, diff, rd, now, st.patch_attempt_count⟩] },
         success_msg path, evs₀)
    else
      let st₁ :=
        { st with retry_count := updRetry st.retry_count path (retry_count + 1) }
      match apply_result.reverse_diff with
      | some rd =>
        let rr := revertExec rd
        let evs₁ := evs₀ ++ AgentEv.toolExec path rd ::
          (if rr.2 then [AgentEv.subprocRun path] else []) ++
          (if rr.1.success then [] else [AgentEv.revertFailedEv path])
        ({ st₁ with last_errors := verification.errors },
         "Patch reverted due to verification failure:\n" ++
           String.intercalate "\n" verification.errors, evs₁)
      | none =>
        ({ st₁ with last_errors := verification.errors },
         "Patch reverted due to verification failure:\n" ++
           String.intercalate "\n" verification.errors, evs₀)

/-- Model of `Agent._execute_patch_with_verification` proper: the tool calls are the
`applyPatchExec` model, `fileContent` is the on-disk content of `path`
before the forward apply (`none` iff `is_new_file`), `postContent` the
content when the revert runs, `run`/`revertRun` the two `patch` subprocess
oracles, `verification` the `verify_patch` oracle. -/
def exec_patch_with_verification (maxRetries : Nat) (st : PatchSt)
    (path diff : String) (fileContent : Option String) (run : PatchRun)
    (verification : VerificationResult) (postContent : Option String)
    (revertRun : PatchRun) (now : Nat) : PatchSt × String × List AgentEv :=
  exec_patch_core maxRetries st path diff fileContent.isNone
    (applyPatchExec path diff fileContent run) verification
    (fun rd => applyPatchExec path rd postContent revertRun) now

/-- A run of consecutive `apply_patch` calls on one path whose forward
apply always fails (scenario S3): the concatenated event traces. -/
def failStreak (maxRetries : Nat) (path diff : String)
    (fileContent : Option String) (run : PatchRun)
    (verification : VerificationResult) (postContent : Option String)
    (revertRun : PatchRun) : Nat → PatchSt → List AgentEv
  | 0, _ => []
  | n + 1, st =>
    let r := exec_patch_with_verification maxRetries st path diff fileContent
      run verification postContent revertRun 0
    r.2.2 ++ failStreak maxRetries path diff fileContent run verification
      postContent revertRun n r.1

/-- Is an agent event an entry into the DiffEngine
(`ApplyPatchTool.execute`)? -/
def isToolExecEv : AgentEv → Bool
  | .toolExec _ _ => true
  | _ => false

/-! ### The turn loop (`Agent._execute_loop` / `Agent._check_limits`) -/

/-- Model of `AgentLimits` of `agent.py`. -/
structure AgentLimits where
  max_turns : Nat := 20
  max_tool_calls : Nat := 50
  max_patch_attempts : Nat := 15
  max_retries_per_patch : Nat := 3
deriving DecidableEq

/-- The three counters of `AgentState` the loop maintains. -/
structure Counters where
  turn_count : Nat := 0
  tool_call_count : Nat := 0
  patch_attempt_count : Nat := 0
deriving DecidableEq

/-- Model of `Agent._check_limits`. -/
def check_limits (lim : AgentLimits) (c : Counters) : Option String :=
  if lim.max_turns ≤ c.turn_count then some "max_turns"
  else if lim.max_tool_calls ≤ c.tool_call_count then some "max_tool_calls"
  else if lim.max_patch_attempts ≤ c.patch_attempt_count then
    some "max_patch_attempts"
  else none

/-- The tool named by one tool-use block. -/
inductive ToolKind
  | readFile
  | applyPatch
  | runShell
deriving DecidableEq

/-- One model response, abstracted to what the loop inspects: `none` when
the response has no tool-use blocks (the loop ends), otherwise the ordered
tool-use blocks. -/
def Response := Option (List ToolKind)

/-- Observable actions of the loop: a request sent to the model, and an
executed tool call. -/
inductive Action
  | modelRequest
  | execTool (k : ToolKind)
deriving DecidableEq

/-- Is an action a model request? -/
def isModelReq : Action → Bool
  | .modelRequest => true
  | _ => false

/-- Is an action an executed tool call? -/
def isToolAct : Action → Bool
  | .execTool _ => true
  | _ => false

/-- Is an action an executed `apply_patch` call? -/
def isPatchAct : Action → Bool
  | .execTool .applyPatch => true
  | _ => false

/-- The counter update at the head of the inner tool loop of
`_execute_loop`: `tool_call_count` is always incremented,
`patch_attempt_count` additionally for an `apply_patch` call. -/
def bumped (c : Counters) (k : ToolKind) : Counters :=
  { turn_count := c.turn_count,
    tool_call_count := c.tool_call_count + 1,
    patch_attempt_count :=
      c.patch_attempt_count + (if k = ToolKind.applyPatch then 1 else 0) }

/-- The `turn_count` increment at the head of each turn. -/
def turnBumped (c : Counters) : Counters :=
  { c with turn_count := c.turn_count + 1 }

/-- The inner `for tool_call in tool_calls` loop of `_execute_loop`:
increment `tool_call_count` (and `patch_attempt_count` for `apply_patch`),
re-check limits, and only then execute the tool; on a limit breach the loop
body breaks with `hit_limit` set.  Returns the final counters, the executed
actions, and the `hit_limit` flag. -/
def runCalls (lim : AgentLimits) : List ToolKind → Counters →
    Counters × List Action × Bool
  | [], c => (c, [], false)
  | k :: ks, c =>
    match check_limits lim (bumped c k) with
    | some _ => (bumped c k, [], true)
    | none =>
      let r := runCalls lim ks (bumped c k)
      (r.1, Action.execTool k :: r.2.1, r.2.2)

/-- Model of `Agent._execute_loop` over a finite script of model responses: check
limits, increment `turn_count`, send the request; a response without tool
use ends the loop; otherwise the tool calls run through `runCalls`, and a
limit hit inside the turn ends the loop. -/
def runLoop (lim : AgentLimits) : List Response → Counters →
    Counters × List Action
  | [], c => (c, [])
  | r :: rest, c =>
    match check_limits lim c with
    | some _ => (c, [])
    | none =>
      match r with
      | none => (turnBumped c, [Action.modelRequest])
      | some ks =>
        let rc := runCalls lim ks (turnBumped c)
        if rc.2.2 then (rc.1, Action.modelRequest :: rc.2.1)
        else
          let rl := runLoop lim rest rc.1
          (rl.1, Action.modelRequest :: (rc.2.1 ++ rl.2))

end AgentM

/-! ## Concrete instances used by counterexamples and witnesses -/

/-- Pre-patch content of a file `f.py` (scenario of §8/S1 shape). -/
def c1_pre : String := "a = 1\nb = 2\nc = 3\n"

/-- A valid model-produced diff appending one line: three leading context
lines, one addition, so the hunk has unequal old/new lengths. -/
def c1_diff : String := "@@ -1,3 +1,4 @@\n a = 1\n b = 2\n c = 3\n+d = 4"

/-- The full patch after the engine prepends synthetic file headers. -/
def c1_full : String := "--- f.py\n+++ f.py\n" ++ c1_diff

/-- The post-patch content of `f.py`. -/
def c1_post : String := "a = 1\nb = 2\nc = 3\nd = 4\n"

/-- The reverse diff `ApplyPatchTool._generate_reverse_diff` produces for
`c1_full`: prefixes swapped, hunk header `@@ -1,3 +1,4 @@` preserved. -/
def c1_rev : String :=
  "--- f.py\n+++ f.py\n@@ -1,3 +1,4 @@\n a = 1\n b = 2\n c = 3\n-d = 4"

/-- A diff with three well-formed leading context lines before its only
change, one of which contains a `# TODO` comment. -/
def c6_diff : String :=
  "@@ -1,5 +1,5 @@\n ctx1\n ctx2\n # TODO later\n-old\n+new"

/-- A valid file-creation diff (header `@@ -0,0 ...`). -/
def c8_diff : String := "@@ -0,0 +1,2 @@\n+a = 1\n+b = 2"

/-- An agent state with two prior failures recorded for `b.py`. -/
def c3_state : AgentM.PatchSt :=
  { changes := [], retry_count := fun q => if q = "b.py" then 2 else 0,
    created_files := fun _ => false, last_errors := [], patch_attempt_count := 5 }

/-- An empty agent state. -/
def empty_state : AgentM.PatchSt :=
  { changes := [], retry_count := fun _ => 0, created_files := fun _ => false,
    last_errors := [], patch_attempt_count := 0 }

/-! # Lemmas -/

theorem startsWith_iff {α : Type} [DecidableEq α] :
    ∀ (p l : List α), startsWith p l = true ↔ p <+: l := by
  intro p
  induction p with
  | nil => intro l; simp [startsWith]
  | cons a as ih =>
    intro l
    cases l with
    | nil => simp [startsWith]
    | cons b bs =>
      simp only [startsWith, Bool.and_eq_true, decide_eq_true_eq, ih bs,
        List.cons_prefix_cons]

theorem containsSeq_iff {α : Type} [DecidableEq α] (needle : List α) :
    ∀ hay : List α, containsSeq needle hay = true ↔ needle <:+: hay := by
  intro hay
  induction hay with
  | nil => simp [containsSeq, startsWith_iff, List.infix_nil, List.prefix_nil]
  | cons a rest ih =>
    simp only [containsSeq, Bool.or_eq_true, startsWith_iff, ih,
      List.infix_cons_iff]

theorem splitLines_head_pre :
    ∀ s : List Char, ∃ l ls, splitLines s = l :: ls ∧ l <+: s := by
  intro s
  induction s with
  | nil => exact ⟨[], [], rfl, List.nil_prefix⟩
  | cons c rest ih =>
    obtain ⟨l, ls, h, hp⟩ := ih
    by_cases hc : c = '\n'
    · exact ⟨[], splitLines rest, by simp [splitLines, hc], List.nil_prefix⟩
    · refine ⟨c :: l, ls, ?_, ?_⟩
      · simp [splitLines, hc, h]
      · exact List.cons_prefix_cons.mpr ⟨rfl, hp⟩

theorem mem_splitLines_contains :
    ∀ (s : List Char) (l : List Char), l ∈ splitLines s → l <:+: s := by
  intro s
  induction s with
  | nil =>
    intro l hl
    simp only [splitLines, List.mem_singleton] at hl
    simp [hl]
  | cons c rest ih =>
    intro l hl
    by_cases hc : c = '\n'
    · subst hc
      simp only [splitLines, List.mem_cons, reduceIte] at hl
      rcases hl with h | h
      · simp [h, List.nil_infix]
      · exact List.infix_cons (ih l h)
    · obtain ⟨l₀, ls, hsp, hp⟩ := splitLines_head_pre rest
      rw [show splitLines (c :: rest) = (c :: l₀) :: ls by
        simp [splitLines, hc, hsp]] at hl
      rcases List.mem_cons.mp hl with h | h
      · subst h
        exact (List.cons_prefix_cons.mpr ⟨rfl, hp⟩).isInfix
      · exact List.infix_cons (ih l (by rw [hsp]; exact List.mem_cons_of_mem _ h))

open FileOps PatchSem RepoMapM VerifierM ConfigM AgentM

theorem check_limits_none_iff (lim : AgentLimits) (c : Counters) :
    check_limits lim c = none ↔
      c.turn_count < lim.max_turns ∧ c.tool_call_count < lim.max_tool_calls ∧
        c.patch_attempt_count < lim.max_patch_attempts := by
  unfold check_limits
  split_ifs <;> simp <;> omega

theorem runCalls_spec (lim : AgentLimits) :
    ∀ (ks : List ToolKind) (c : Counters),
      c.tool_call_count ≤ (runCalls lim ks c).1.tool_call_count ∧
      c.patch_attempt_count ≤ (runCalls lim ks c).1.patch_attempt_count ∧
      (runCalls lim ks c).1.turn_count = c.turn_count ∧
      (runCalls lim ks c).2.1.countP isModelReq = 0 ∧
      (runCalls lim ks c).2.1.countP isToolAct ≤
        (runCalls lim ks c).1.tool_call_count - c.tool_call_count ∧
      (runCalls lim ks c).2.1.countP isPatchAct ≤
        (runCalls lim ks c).1.patch_attempt_count - c.patch_attempt_count ∧
      (c.tool_call_count < lim.max_tool_calls →
        c.patch_attempt_count < lim.max_patch_attempts →
        (runCalls lim ks c).1.tool_call_count ≤ lim.max_tool_calls ∧
        (runCalls lim ks c).1.patch_attempt_count ≤ lim.max_patch_attempts) := by
  intro ks
  induction ks with
  | nil =>
    intro c
    exact ⟨le_refl _, le_refl _, rfl, rfl, Nat.zero_le _, Nat.zero_le _,
      fun h₁ h₂ => ⟨le_of_lt h₁, le_of_lt h₂⟩⟩
  | cons k ks ih =>
    intro c
    have hδ : (if k = ToolKind.applyPatch then 1 else 0) ≤ 1 := by
      split <;> omega
    have e₁ : (bumped c k).turn_count = c.turn_count := rfl
    have e₂ : (bumped c k).tool_call_count = c.tool_call_count + 1 := rfl
    have e₃ : (bumped c k).patch_attempt_count = c.patch_attempt_count +
        (if k = ToolKind.applyPatch then 1 else 0) := rfl
    cases hchk : check_limits lim (bumped c k) with
    | some s =>
      have hres1 : (runCalls lim (k :: ks) c).1 = bumped c k := by
        simp only [runCalls, hchk]
      have hres2 : (runCalls lim (k :: ks) c).2.1 = [] := by
        simp only [runCalls, hchk]
      rw [hres1, hres2]
      exact ⟨by omega, by omega, by omega, rfl, Nat.zero_le _, Nat.zero_le _,
        fun h₁ h₂ => ⟨by omega, by omega⟩⟩
    | none =>
      have hres1 : (runCalls lim (k :: ks) c).1 =
          (runCalls lim ks (bumped c k)).1 := by
        simp only [runCalls, hchk]
      have hres2 : (runCalls lim (k :: ks) c).2.1 =
          Action.execTool k :: (runCalls lim ks (bumped c k)).2.1 := by
        simp only [runCalls, hchk]
      obtain ⟨hlt₁, hlt₂, hlt₃⟩ := (check_limits_none_iff lim (bumped c k)).mp hchk
      obtain ⟨ih₁, ih₂, ih₃, ih₄, ih₅, ih₆, ih₇⟩ := ih (bumped c k)
      obtain ⟨rb₁, rb₂⟩ := ih₇ (by omega) (by omega)
      rw [hres1, hres2]
      have hmr : isModelReq (Action.execTool k) = false := rfl
      have hta : isToolAct (Action.execTool k) = true := rfl
      have hcm : ((Action.execTool k :: (runCalls lim ks (bumped c k)).2.1).countP
          isModelReq) = (runCalls lim ks (bumped c k)).2.1.countP isModelReq := by
        simp [List.countP_cons, hmr]
      have hct : ((Action.execTool k :: (runCalls lim ks (bumped c k)).2.1).countP
          isToolAct) = (runCalls lim ks (bumped c k)).2.1.countP isToolAct + 1 := by
        simp [List.countP_cons, hta]
      refine ⟨by omega, by omega, by omega, by rw [hcm]; exact ih₄,
        by rw [hct]; omega, ?_, fun _ _ => ⟨rb₁, rb₂⟩⟩
      by_cases hk : k = ToolKind.applyPatch
      · have hδ1 : (if k = ToolKind.applyPatch then 1 else 0) = 1 := if_pos hk
        have hpa : isPatchAct (Action.execTool k) = true := by rw [hk]; rfl
        have hcp : ((Action.execTool k ::
            (runCalls lim ks (bumped c k)).2.1).countP isPatchAct)
            = (runCalls lim ks (bumped c k)).2.1.countP isPatchAct + 1 := by
          simp [List.countP_cons, hpa]
        omega
      · have hδ0 : (if k = ToolKind.applyPatch then 1 else 0) = 0 := if_neg hk
        have hpa : isPatchAct (Action.execTool k) = false := by
          cases k with
          | applyPatch => exact absurd rfl hk
          | readFile => rfl
          | runShell => rfl
        have hcp : ((Action.execTool k ::
            (runCalls lim ks (bumped c k)).2.1).countP isPatchAct)
            = (runCalls lim ks (bumped c k)).2.1.countP isPatchAct := by
          simp [List.countP_cons, hpa]
        omega

theorem runLoop_spec (lim : AgentLimits) :
    ∀ (script : List Response) (c : Counters),
      (runLoop lim script c).2.countP isModelReq ≤ lim.max_turns - c.turn_count ∧
      (runLoop lim script c).2.countP isToolAct ≤
        lim.max_tool_calls - c.tool_call_count ∧
      (runLoop lim script c).2.countP isPatchAct ≤
        lim.max_patch_attempts - c.patch_attempt_count ∧
      (c.turn_count ≤ lim.max_turns → c.tool_call_count ≤ lim.max_tool_calls →
        c.patch_attempt_count ≤ lim.max_patch_attempts →
        (runLoop lim script c).1.turn_count ≤ lim.max_turns ∧
        (runLoop lim script c).1.tool_call_count ≤ lim.max_tool_calls ∧
        (runLoop lim script c).1.patch_attempt_count ≤ lim.max_patch_attempts) := by
  intro script
  induction script with
  | nil =>
    intro c
    exact ⟨Nat.zero_le _, Nat.zero_le _, Nat.zero_le _,
      fun h₁ h₂ h₃ => ⟨h₁, h₂, h₃⟩⟩
  | cons r rest ih =>
    intro c
    cases hchk : check_limits lim c with
    | some s =>
      have hres1 : (runLoop lim (r :: rest) c).1 = c := by
        simp only [runLoop, hchk]
      have hres2 : (runLoop lim (r :: rest) c).2 = [] := by
        simp only [runLoop, hchk]
      rw [hres1, hres2]
      exact ⟨Nat.zero_le _, Nat.zero_le _, Nat.zero_le _,
        fun h₁ h₂ h₃ => ⟨h₁, h₂, h₃⟩⟩
    | none =>
      obtain ⟨hlt₁, hlt₂, hlt₃⟩ := (check_limits_none_iff lim c).mp hchk
      have hmr : isModelReq Action.modelRequest = true := rfl
      have hta : isToolAct Action.modelRequest = false := rfl
      have hpa : isPatchAct Action.modelRequest = false := rfl
      have e₁ : (turnBumped c).turn_count = c.turn_count + 1 := rfl
      have e₂ : (turnBumped c).tool_call_count = c.tool_call_count := rfl
      have e₃ : (turnBumped c).patch_attempt_count = c.patch_attempt_count := rfl
      cases r with
      | none =>
        have hres1 : (runLoop lim (none :: rest) c).1 = turnBumped c := by
          simp only [runLoop, hchk]
        have hres2 : (runLoop lim (none :: rest) c).2 =
            [Action.modelRequest] := by
          simp only [runLoop, hchk]
        rw [hres1, hres2]
        refine ⟨?_, ?_, ?_, fun _ _ _ => ⟨by omega, by omega, by omega⟩⟩
        · have : ([Action.modelRequest].countP isModelReq) = 1 := by
            simp [List.countP_cons, hmr]
          omega
        · have : ([Action.modelRequest].countP isToolAct) = 0 := by
            simp [List.countP_cons, hta]
          omega
        · have : ([Action.modelRequest].countP isPatchAct) = 0 := by
            simp [List.countP_cons, hpa]
          omega
      | some ks =>
        obtain ⟨rs₁, rs₂, rs₃, rs₄, rs₅, rs₆, rs₇⟩ :=
          runCalls_spec lim ks (turnBumped c)
        obtain ⟨rb₁, rb₂⟩ := rs₇ (by omega) (by omega)
        cases hb : (runCalls lim ks (turnBumped c)).2.2 with
        | true =>
          have hres1 : (runLoop lim (some ks :: rest) c).1 =
              (runCalls lim ks (turnBumped c)).1 := by
            simp only [runLoop, hchk, hb, if_true]
          have hres2 : (runLoop lim (some ks :: rest) c).2 =
              Action.modelRequest :: (runCalls lim ks (turnBumped c)).2.1 := by
            simp only [runLoop, hchk, hb, if_true]
          rw [hres1, hres2]
          have h₁ : ((Action.modelRequest ::
              (runCalls lim ks (turnBumped c)).2.1).countP isModelReq)
              = (runCalls lim ks (turnBumped c)).2.1.countP isModelReq + 1 := by
            simp [List.countP_cons, hmr]
          have h₂ : ((Action.modelRequest ::
              (runCalls lim ks (turnBumped c)).2.1).countP isToolAct)
              = (runCalls lim ks (turnBumped c)).2.1.countP isToolAct := by
            simp [List.countP_cons, hta]
          have h₃ : ((Action.modelRequest ::
              (runCalls lim ks (turnBumped c)).2.1).countP isPatchAct)
              = (runCalls lim ks (turnBumped c)).2.1.countP isPatchAct := by
            simp [List.countP_cons, hpa]
          exact ⟨by omega, by omega, by omega,
            fun _ _ _ => ⟨by omega, rb₁, rb₂⟩⟩
        | false =>
          obtain ⟨il₁, il₂, il₃, il₄⟩ := ih (runCalls lim ks (turnBumped c)).1
          obtain ⟨ib₁, ib₂, ib₃⟩ := il₄ (by omega) rb₁ rb₂
          have hres1 : (runLoop lim (some ks :: rest) c).1 =
              (runLoop lim rest (runCalls lim ks (turnBumped c)).1).1 := by
            simp only [runLoop, hchk, hb, Bool.false_eq_true, if_false]
          have hres2 : (runLoop lim (some ks :: rest) c).2 =
              Action.modelRequest ::
                ((runCalls lim ks (turnBumped c)).2.1 ++
                  (runLoop lim rest (runCalls lim ks (turnBumped c)).1).2) := by
            simp only [runLoop, hchk, hb, Bool.false_eq_true, if_false]
          rw [hres1, hres2]
          have h₁ : ((Action.modelRequest ::
              ((runCalls lim ks (turnBumped c)).2.1 ++
                (runLoop lim rest (runCalls lim ks (turnBumped c)).1).2)).countP
                  isModelReq)
              = (runCalls lim ks (turnBumped c)).2.1.countP isModelReq +
                (runLoop lim rest
                  (runCalls lim ks (turnBumped c)).1).2.countP isModelReq + 1 := by
            simp [List.countP_cons, List.countP_append, hmr]
          have h₂ : ((Action.modelRequest ::
              ((runCalls lim ks (turnBumped c)).2.1 ++
                (runLoop lim rest (runCalls lim ks (turnBumped c)).1).2)).countP
                  isToolAct)
              = (runCalls lim ks (turnBumped c)).2.1.countP isToolAct +
                (runLoop lim rest
                  (runCalls lim ks (turnBumped c)).1).2.countP isToolAct := by
            simp [List.countP_cons, List.countP_append, hta]
          have h₃ : ((Action.modelRequest ::
              ((runCalls lim ks (turnBumped c)).2.1 ++
                (runLoop lim rest (runCalls lim ks (turnBumped c)).1).2)).countP
                  isPatchAct)
              = (runCalls lim ks (turnBumped c)).2.1.countP isPatchAct +
                (runLoop lim rest
                  (runCalls lim ks (turnBumped c)).1).2.countP isPatchAct := by
            simp [List.countP_cons, List.countP_append, hpa]
          exact ⟨by omega, by omega, by omega, fun _ _ _ => ⟨ib₁, ib₂, ib₃⟩⟩

theorem runLoop_stopped (lim : AgentLimits) (script : List Response)
    (c : Counters)
    (h : lim.max_turns ≤ c.turn_count ∨ lim.max_tool_calls ≤ c.tool_call_count ∨
      lim.max_patch_attempts ≤ c.patch_attempt_count) :
    runLoop lim script c = (c, []) := by
  cases script with
  | nil => rfl
  | cons r rest =>
    cases hchk : check_limits lim c with
    | none =>
      have := (check_limits_none_iff lim c).mp hchk
      omega
    | some s => simp [runLoop, hchk]

/-- Claim C1: the rollback contract fails on the code.  For the file
`"a = 1\nb = 2\nc = 3\n"` and the valid append-one-line diff `c1_diff`, the
forward apply succeeds and `ApplyPatchTool.execute` stores the reverse diff
produced by swapping `+`/`-` while preserving the hunk header
`@@ -1,3 +1,4 @@`; applying that reverse diff to the post-patch content
fails (GNU `patch` rejects it as malformed, since the body now has four
old-side lines against a declared count of 3), so neither the per-change
rollback contract nor `revert_all` can restore the pre-patch content. -/
theorem c1_rollback_contract_fails_on_line_count_change :
    (applyPatchExec "f.py" c1_diff (some c1_pre) (.ran 0 "" "")).1.success = true ∧
    (applyPatchExec "f.py" c1_diff (some c1_pre) (.ran 0 "" "")).1.reverse_diff
      = some c1_rev ∧
    applyUnifiedStr c1_pre c1_full = some c1_post ∧
    generate_reverse_diff_str "f.py" c1_full = c1_rev ∧
    applyUnifiedStr c1_post c1_rev = none ∧
    c1_post ≠ c1_pre := by
  exact ⟨by decide, by decide, by decide, by decide, by decide, by decide⟩

/-- Claim C2: throughout the turn loop the counters `turn_count`,
`tool_call_count` and `patch_attempt_count` never exceed their limits, the
numbers of model requests, executed tool calls and executed `apply_patch`
calls are bounded by the limits, and from any state in which some counter
has reached its limit the loop performs no further action at all. -/
theorem c2_limit_invariants (lim : AgentLimits) (script : List Response) :
    ((runLoop lim script ⟨0, 0, 0⟩).1.turn_count ≤ lim.max_turns ∧
     (runLoop lim script ⟨0, 0, 0⟩).1.tool_call_count ≤ lim.max_tool_calls ∧
     (runLoop lim script ⟨0, 0, 0⟩).1.patch_attempt_count ≤
       lim.max_patch_attempts) ∧
    ((runLoop lim script ⟨0, 0, 0⟩).2.countP isModelReq ≤ lim.max_turns ∧
     (runLoop lim script ⟨0, 0, 0⟩).2.countP isToolAct ≤ lim.max_tool_calls ∧
     (runLoop lim script ⟨0, 0, 0⟩).2.countP isPatchAct ≤
       lim.max_patch_attempts) ∧
    (∀ c : Counters,
      lim.max_turns ≤ c.turn_count ∨ lim.max_tool_calls ≤ c.tool_call_count ∨
        lim.max_patch_attempts ≤ c.patch_attempt_count →
      runLoop lim script c = (c, [])) := by
  obtain ⟨h₁, h₂, h₃, h₄⟩ := runLoop_spec lim script ⟨0, 0, 0⟩
  refine ⟨h₄ (by simp) (by simp) (by simp), ⟨?_, ?_, ?_⟩,
    fun c hc => runLoop_stopped lim script c hc⟩
  · simpa using h₁
  · simpa using h₂
  · simpa using h₃

/-- Witness for C2 at a concrete limit configuration and script. -/
theorem c2_limit_invariants_witness :
    ((runLoop ⟨2, 5, 3, 3⟩
        [some [ToolKind.readFile, ToolKind.applyPatch], some [ToolKind.applyPatch]]
        ⟨0, 0, 0⟩).1.turn_count ≤ 2) ∧
    runLoop ⟨2, 5, 3, 3⟩ [some [ToolKind.readFile]] ⟨2, 0, 0⟩ = (⟨2, 0, 0⟩, []) :=
  ⟨(c2_limit_invariants ⟨2, 5, 3, 3⟩
      [some [ToolKind.readFile, ToolKind.applyPatch],
        some [ToolKind.applyPatch]]).1.1,
   (c2_limit_invariants ⟨2, 5, 3, 3⟩ [some [ToolKind.readFile]]).2.2
     ⟨2, 0, 0⟩ (Or.inl (by decide))⟩

theorem check_tests_trace (cfg : VerifierCfg) (deps : List (String × String))
    (mods : List String) (o : RunOutcome) :
    (check_tests cfg deps mods false o).2 = [] ∨
    ∃ tf, (check_tests cfg deps mods false o).2 =
      [VEvent.pytestRun ("pytest" :: "-q" :: tf)] := by
  simp only [check_tests]
  repeat' split
  all_goals try exact Or.inl rfl
  all_goals exact Or.inr ⟨_, rfl⟩

theorem check_tests_cmd (cfg : VerifierCfg) (deps : List (String × String))
    (mods : List String) (o : RunOutcome) (cmd : List String)
    (h : VEvent.pytestRun cmd ∈ (check_tests cfg deps mods false o).2) :
    cmd.take 2 = ["pytest", "-q"] := by
  rcases check_tests_trace cfg deps mods o with ht | ⟨tf, ht⟩
  · rw [ht] at h
    simp at h
  · rw [ht] at h
    simp only [List.mem_singleton, VEvent.pytestRun.injEq] at h
    subst h
    rfl

theorem verify_pytest_cmd (cfg : VerifierCfg) (deps : List (String × String))
    (f : String) (sy : SyntaxOutcome) (li te : RunOutcome) (cmd : List String)
    (h : VEvent.pytestRun cmd ∈ (verify_patch cfg deps f sy li te).2) :
    cmd.take 2 = ["pytest", "-q"] := by
  simp only [verify_patch] at h
  split at h
  · simp at h
  · split at h
    · simp at h
    · split at h <;>
      · simp only [List.mem_append, List.mem_cons, List.not_mem_nil] at h
        rcases h with (h | h | h) | h
        · exact absurd h (by simp)
        · exact absurd h (by simp)
        · exact absurd h (by simp)
        · exact check_tests_cmd cfg deps [f] te cmd h

/-- Claim C4: `verify_patch` runs syntax first, lint only if syntax passed,
tests only if lint passed, returning the first failing stage's result with
no later stage run; and in the test stage, if the dependency index reports
no affected tests and the fallback set is empty, the test stage is skipped
and reported as passed without invoking pytest. -/
theorem c4_short_circuit (cfg : VerifierCfg) (deps : List (String × String))
    (f : String) (sy : SyntaxOutcome) (li te : RunOutcome) :
    ((syntax_check f sy).passed = false →
      verify_patch cfg deps f sy li te =
        (syntax_check f sy, [VEvent.stageSyntax])) ∧
    ((syntax_check f sy).passed = true → (check_lint li).passed = false →
      verify_patch cfg deps f sy li te =
        (check_lint li, [VEvent.stageSyntax, VEvent.stageLint])) ∧
    ((syntax_check f sy).passed = true → (check_lint li).passed = true →
      (check_tests cfg deps [f] false te).1.passed = false →
      verify_patch cfg deps f sy li te =
        ((check_tests cfg deps [f] false te).1,
          [VEvent.stageSyntax, VEvent.stageLint] ++
            (check_tests cfg deps [f] false te).2)) ∧
    ((syntax_check f sy).passed = true → (check_lint li).passed = true →
      (check_tests cfg deps [f] false te).1.passed = true →
      verify_patch cfg deps f sy li te =
        (⟨true, []⟩,
          [VEvent.stageSyntax, VEvent.stageLint] ++
            (check_tests cfg deps [f] false te).2)) ∧
    (RepoMapM.find_affected_tests deps [f] cfg.test_patterns = [] →
      cfg.fallback_tests = [] →
      check_tests cfg deps [f] false te = (⟨true, []⟩, [])) := by
  refine ⟨?_, ?_, ?_, ?_, ?_⟩
  · intro h₁
    simp [verify_patch, h₁]
  · intro h₁ h₂
    simp [verify_patch, h₁, h₂]
  · intro h₁ h₂ h₃
    simp [verify_patch, h₁, h₂, h₃]
  · intro h₁ h₂ h₃
    simp [verify_patch, h₁, h₂, h₃]
  · intro h₁ h₂
    simp [check_tests, h₁, h₂]

/-- Witness for C4 at concrete stage outcomes. -/
theorem c4_short_circuit_witness :
    verify_patch ⟨["tests/"], []⟩ [] "a.py" (.syntaxErr 3 "bad") (.ran 0 "" "")
        (.ran 0 "" "") =
      (syntax_check "a.py" (.syntaxErr 3 "bad"), [VEvent.stageSyntax]) ∧
    check_tests ⟨["tests/"], []⟩ [] ["a.py"] false (.ran 0 "" "") =
      (⟨true, []⟩, []) :=
  ⟨(c4_short_circuit ⟨["tests/"], []⟩ [] "a.py" (.syntaxErr 3 "bad")
      (.ran 0 "" "") (.ran 0 "" "")).1 (by decide),
   (c4_short_circuit ⟨["tests/"], []⟩ [] "a.py" (.syntaxErr 3 "bad")
      (.ran 0 "" "") (.ran 0 "" "")).2.2.2.2 (by decide) rfl⟩

/-- Claim C10: the Verifier is built from only the repo map, `test_patterns`
and `fallback_tests`, so two configurations differing only in the
`verification` toggles or `pytest_args` yield verifiers with identical
`verify_patch` behaviour, and the test stage always runs `pytest -q`
(never the configured `pytest_args`). -/
theorem c10_verifier_config_independence (c₁ c₂ : ConfigM.Config)
    (h₁ : c₁.test_patterns = c₂.test_patterns)
    (h₂ : c₁.fallback_tests = c₂.fallback_tests) :
    ConfigM.mkVerifier c₁ = ConfigM.mkVerifier c₂ ∧
    (∀ (deps : List (String × String)) (f : String) (sy : SyntaxOutcome)
      (li te : RunOutcome),
      verify_patch (ConfigM.mkVerifier c₁) deps f sy li te =
        verify_patch (ConfigM.mkVerifier c₂) deps f sy li te) ∧
    (∀ (deps : List (String × String)) (f : String) (sy : SyntaxOutcome)
      (li te : RunOutcome) (cmd : List String),
      VEvent.pytestRun cmd ∈
          (verify_patch (ConfigM.mkVerifier c₁) deps f sy li te).2 →
      cmd.take 2 = ["pytest", "-q"]) := by
  have hv : ConfigM.mkVerifier c₁ = ConfigM.mkVerifier c₂ := by
    simp [ConfigM.mkVerifier, h₁, h₂]
  exact ⟨hv, fun deps f sy li te => by rw [hv],
    fun deps f sy li te cmd h => verify_pytest_cmd _ deps f sy li te cmd h⟩

/-- Witness for C10: two configurations differing in every verification
toggle and in `pytest_args` produce the same verifier. -/
theorem c10_verifier_config_independence_witness :
    ConfigM.mkVerifier
        { verification :=
            { syntaxCheck := false, ruff := false, mypy := true,
              mypy_full := false, pytest := false, pytest_args := ["-vv"] } } =
      ConfigM.mkVerifier {} ∧
    verify_patch (ConfigM.mkVerifier
        { verification :=
            { syntaxCheck := false, ruff := false, mypy := true,
              mypy_full := false, pytest := false, pytest_args := ["-vv"] } })
        [] "a.py" .ok (.ran 0 "" "") (.ran 0 "" "") =
      verify_patch (ConfigM.mkVerifier {}) [] "a.py" .ok (.ran 0 "" "")
        (.ran 0 "" "") :=
  ⟨(c10_verifier_config_independence _ _ rfl rfl).1,
   (c10_verifier_config_independence _ _ rfl rfl).2.1 [] "a.py" .ok
     (.ran 0 "" "") (.ran 0 "" "")⟩

theorem reverse_diff_none_of_new (path diff : String) (run : PatchRun) :
    (applyPatchExec path diff none run).1.reverse_diff = none := by
  cases hv : validate_patch_with_reason diff with
  | some r => simp [applyPatchExec, hv]
  | none =>
    cases run with
    | notFound => simp [applyPatchExec, hv]
    | ran rc o e => by_cases h : rc = 0 <;> simp [applyPatchExec, hv, h]

theorem failStreak_count (maxR : Nat) (path diff : String)
    (fileContent : Option String) (run : PatchRun)
    (verif : VerificationResult) (postC : Option String)
    (revertRun : PatchRun)
    (hfail : (applyPatchExec path diff fileContent run).1.success = false) :
    ∀ (n : Nat) (st : PatchSt),
      ((failStreak maxR path diff fileContent run verif postC revertRun n
          st).countP isToolExecEv)
        = min n (maxR - st.retry_count path) := by
  intro n
  induction n with
  | zero => intro st; simp [failStreak]
  | succ n ih =>
    intro st
    by_cases hterm : maxR ≤ st.retry_count path
    · have hstep : exec_patch_with_verification maxR st path diff fileContent
          run verif postC revertRun 0 = (st, terminal_retry_msg maxR path, []) := by
        simp [exec_patch_with_verification, exec_patch_core, hterm]
      simp only [failStreak, hstep]
      rw [List.nil_append, ih]
      omega
    · have h1 : (exec_patch_with_verification maxR st path diff fileContent
          run verif postC revertRun 0).2.2 =
          AgentEv.toolExec path diff ::
            (if (applyPatchExec path diff fileContent run).2 then
              [AgentEv.subprocRun path] else []) := by
        simp [exec_patch_with_verification, exec_patch_core, hterm, hfail]
      have h2 : (exec_patch_with_verification maxR st path diff fileContent
          run verif postC revertRun 0).1.retry_count path =
          st.retry_count path + 1 := by
        simp [exec_patch_with_verification, exec_patch_core, hterm, hfail,
          updRetry]
      have hc1 : ((exec_patch_with_verification maxR st path diff fileContent
          run verif postC revertRun 0).2.2).countP isToolExecEv = 1 := by
        rw [h1]
        cases (applyPatchExec path diff fileContent run).2 <;>
          simp [isToolExecEv]
      simp only [failStreak]
      rw [List.countP_append, hc1, ih, h2]
      omega

/-- Claim C3 counterexample: a file-creation patch (`b.py` does not exist)
that applies successfully and passes verification does not clear
`retry_count["b.py"]` — the code returns the reverse-diff error instead,
leaving the count at 2. -/
theorem c3_counterexample :
    (exec_patch_with_verification 3 c3_state "b.py" c8_diff none
        (.ran 0 "" "") ⟨true, []⟩ none (.ran 0 "" "") 0).1.retry_count "b.py"
      = 2 ∧
    (exec_patch_with_verification 3 c3_state "b.py" c8_diff none
        (.ran 0 "" "") ⟨true, []⟩ none (.ran 0 "" "") 0).2.1
      = "Error: Failed to generate reverse diff" ∧
    (applyPatchExec "b.py" c8_diff none (.ran 0 "" "")).1.success = true ∧
    c3_state.retry_count "b.py" = 2 := by
  exact ⟨by decide, by decide, by decide, by decide⟩

/-- Claim C3 (amended): when `retry_count[path]` has reached
`max_retries_per_patch`, `apply_patch` returns the terminal message without
entering the DiffEngine (empty event trace, state unchanged);
`retry_count[path]` is incremented by exactly 1 on an application failure
and on a verification failure, and is cleared when a patch that produced a
reverse diff passes verification (a verified creation patch, which has no
reverse diff, leaves it unchanged); and a run of `n` consecutive failing
apply attempts on one path invokes the DiffEngine exactly
`min n (max_retries_per_patch - retry_count[path])` times. -/
theorem c3_retry_bound (maxR : Nat) (st : PatchSt) (path diff : String)
    (fileContent : Option String) (run : PatchRun)
    (verif : VerificationResult) (postC : Option String)
    (revertRun : PatchRun) (now : Nat) :
    (maxR ≤ st.retry_count path →
      exec_patch_with_verification maxR st path diff fileContent run verif
          postC revertRun now
        = (st, terminal_retry_msg maxR path, [])) ∧
    (st.retry_count path < maxR →
      (applyPatchExec path diff fileContent run).1.success = false →
      (exec_patch_with_verification maxR st path diff fileContent run verif
          postC revertRun now).1.retry_count path
        = st.retry_count path + 1) ∧
    (st.retry_count path < maxR →
      (applyPatchExec path diff fileContent run).1.success = true →
      verif.passed = false →
      (exec_patch_with_verification maxR st path diff fileContent run verif
          postC revertRun now).1.retry_count path
        = st.retry_count path + 1) ∧
    (st.retry_count path < maxR →
      (applyPatchExec path diff fileContent run).1.success = true →
      verif.passed = true →
      ∀ rd, (applyPatchExec path diff fileContent run).1.reverse_diff = some rd →
      (exec_patch_with_verification maxR st path diff fileContent run verif
          postC revertRun now).1.retry_count path = 0) ∧
    ((applyPatchExec path diff fileContent run).1.success = false →
      ∀ n, ((failStreak maxR path diff fileContent run verif postC revertRun n
          st).countP isToolExecEv)
        = min n (maxR - st.retry_count path)) := by
  refine ⟨?_, ?_, ?_, ?_, ?_⟩
  · intro h
    simp [exec_patch_with_verification, exec_patch_core, h]
  · intro h₁ h₂
    have hn : ¬maxR ≤ st.retry_count path := by omega
    simp [exec_patch_with_verification, exec_patch_core, hn, h₂, updRetry]
  · intro h₁ h₂ h₃
    have hn : ¬maxR ≤ st.retry_count path := by omega
    cases hrd : (applyPatchExec path diff fileContent run).1.reverse_diff with
    | none =>
      simp [exec_patch_with_verification, exec_patch_core, hn, h₂, h₃, hrd,
        updRetry]
    | some rd =>
      simp [exec_patch_with_verification, exec_patch_core, hn, h₂, h₃, hrd,
        updRetry]
  · intro h₁ h₂ h₃ rd hrd
    have hn : ¬maxR ≤ st.retry_count path := by omega
    simp [exec_patch_with_verification, exec_patch_core, hn, h₂, h₃, hrd,
      updRetry]
  · intro hfail n
    exact failStreak_count maxR path diff fileContent run verif postC
      revertRun hfail n st

/-- Witness for C3: the terminal branch at limit 2 with two failures
recorded, and the S3 count — four failing attempts with limit 3 invoke the
DiffEngine `min 4 3` times. -/
theorem c3_retry_bound_witness :
    exec_patch_with_verification 2 c3_state "b.py" c1_diff none
        (.ran 0 "" "") ⟨true, []⟩ none (.ran 0 "" "") 0
      = (c3_state, terminal_retry_msg 2 "b.py", []) ∧
    ((failStreak 3 "b.py" "nodiff" none (.ran 0 "" "") ⟨true, []⟩ none
        (.ran 0 "" "") 4 empty_state).countP isToolExecEv)
      = min 4 (3 - empty_state.retry_count "b.py") :=
  ⟨(c3_retry_bound 2 c3_state "b.py" c1_diff none (.ran 0 "" "") ⟨true, []⟩
      none (.ran 0 "" "") 0).1 (by decide),
   (c3_retry_bound 3 empty_state "b.py" "nodiff" none (.ran 0 "" "")
      ⟨true, []⟩ none (.ran 0 "" "") 0).2.2.2.2 (by decide) 4⟩

/-- Claim C7: on a verification failure after a successful apply, the engine
increments `retry_count[path]` by 1, stores the verifier diagnostics in
`last_errors`, leaves the change list (and `created_files`) unchanged,
returns the concatenated diagnostics, applies exactly the reverse diff that
was stored at forward-apply time, and logs a `revert_failed` event iff that
revert fails. -/
theorem c7_verify_failure_handling (maxR : Nat) (st : PatchSt)
    (path diff c : String) (run : PatchRun) (verif : VerificationResult)
    (postC : Option String) (revertRun : PatchRun) (now : Nat)
    (h₁ : st.retry_count path < maxR)
    (h₂ : (applyPatchExec path diff (some c) run).1.success = true)
    (h₃ : verif.passed = false) :
    (exec_patch_with_verification maxR st path diff (some c) run verif postC
        revertRun now).1.retry_count path = st.retry_count path + 1 ∧
    (exec_patch_with_verification maxR st path diff (some c) run verif postC
        revertRun now).1.last_errors = verif.errors ∧
    (exec_patch_with_verification maxR st path diff (some c) run verif postC
        revertRun now).1.changes = st.changes ∧
    (exec_patch_with_verification maxR st path diff (some c) run verif postC
        revertRun now).1.created_files = st.created_files ∧
    (exec_patch_with_verification maxR st path diff (some c) run verif postC
        revertRun now).2.1
      = "Patch reverted due to verification failure:\n" ++
          String.intercalate "\n" verif.errors ∧
    (∀ rd, (applyPatchExec path diff (some c) run).1.reverse_diff = some rd →
      AgentEv.toolExec path rd ∈
        (exec_patch_with_verification maxR st path diff (some c) run verif
          postC revertRun now).2.2 ∧
      ((applyPatchExec path rd postC revertRun).1.success = false →
        AgentEv.revertFailedEv path ∈
          (exec_patch_with_verification maxR st path diff (some c) run verif
            postC revertRun now).2.2) ∧
      ((applyPatchExec path rd postC revertRun).1.success = true →
        AgentEv.revertFailedEv path ∉
          (exec_patch_with_verification maxR st path diff (some c) run verif
            postC revertRun now).2.2)) := by
  have hn : ¬maxR ≤ st.retry_count path := by omega
  cases hrd : (applyPatchExec path diff (some c) run).1.reverse_diff with
  | none =>
    refine ⟨?_, ?_, ?_, ?_, ?_, ?_⟩ <;>
      simp [exec_patch_with_verification, exec_patch_core, hn, h₂, h₃, hrd,
        updRetry]
  | some rd₀ =>
    refine ⟨?_, ?_, ?_, ?_, ?_, ?_⟩
    · simp [exec_patch_with_verification, exec_patch_core, hn, h₂, h₃, hrd,
        updRetry]
    · simp [exec_patch_with_verification, exec_patch_core, hn, h₂, h₃, hrd]
    · simp [exec_patch_with_verification, exec_patch_core, hn, h₂, h₃, hrd]
    · simp [exec_patch_with_verification, exec_patch_core, hn, h₂, h₃, hrd]
    · simp [exec_patch_with_verification, exec_patch_core, hn, h₂, h₃, hrd]
    · intro rd hrd'
      cases hrd'
      refine ⟨?_, ?_, ?_⟩
      · cases hsub : (applyPatchExec path rd₀ postC revertRun).2 <;>
        cases hok : (applyPatchExec path rd₀ postC revertRun).1.success <;>
          simp [exec_patch_with_verification, exec_patch_core, hn, h₂, h₃,
            hrd, hsub, hok]
      · intro hrev
        cases hsub : (applyPatchExec path rd₀ postC revertRun).2 <;>
          simp [exec_patch_with_verification, exec_patch_core, hn, h₂, h₃,
            hrd, hsub, hrev]
      · intro hrev
        cases hsub : (applyPatchExec path rd₀ postC revertRun).2 <;>
        cases hfwd : (applyPatchExec path diff (some c) run).2 <;>
          simp [exec_patch_with_verification, exec_patch_core, hn, h₂, h₃,
            hrd, hsub, hrev, hfwd]

/-- Witness for C7 at a concrete failing verification. -/
theorem c7_verify_failure_handling_witness :
    (exec_patch_with_verification 3 empty_state "f.py" c1_diff (some c1_pre)
        (.ran 0 "" "") ⟨false, ["Syntax error"]⟩ (some c1_post)
        (.ran 2 "" "malformed") 0).1.retry_count "f.py" = 1 ∧
    AgentEv.toolExec "f.py" c1_rev ∈
      (exec_patch_with_verification 3 empty_state "f.py" c1_diff (some c1_pre)
        (.ran 0 "" "") ⟨false, ["Syntax error"]⟩ (some c1_post)
        (.ran 2 "" "malformed") 0).2.2 ∧
    AgentEv.revertFailedEv "f.py" ∈
      (exec_patch_with_verification 3 empty_state "f.py" c1_diff (some c1_pre)
        (.ran 0 "" "") ⟨false, ["Syntax error"]⟩ (some c1_post)
        (.ran 2 "" "malformed") 0).2.2 :=
  ⟨(c7_verify_failure_handling 3 empty_state "f.py" c1_diff c1_pre
      (.ran 0 "" "") ⟨false, ["Syntax error"]⟩ (some c1_post)
      (.ran 2 "" "malformed") 0 (by decide) (by decide) (by decide)).1,
   ((c7_verify_failure_handling 3 empty_state "f.py" c1_diff c1_pre
      (.ran 0 "" "") ⟨false, ["Syntax error"]⟩ (some c1_post)
      (.ran 2 "" "malformed") 0 (by decide) (by decide) (by decide)).2.2.2.2.2
      c1_rev (by decide)).1,
   ((c7_verify_failure_handling 3 empty_state "f.py" c1_diff c1_pre
      (.ran 0 "" "") ⟨false, ["Syntax error"]⟩ (some c1_post)
      (.ran 2 "" "malformed") 0 (by decide) (by decide) (by decide)).2.2.2.2.2
      c1_rev (by decide)).2.1 (by decide)⟩

/-- Claim C8 counterexample: a valid file-creation patch that applies
successfully and passes verification is NOT recorded — the engine returns a
reverse-diff error, appends no ChangeOp and never records the path in
`created_files`. -/
theorem c8_counterexample :
    (exec_patch_with_verification 3 empty_state "new.py" c8_diff none
        (.ran 0 "" "") ⟨true, []⟩ none (.ran 0 "" "") 0).2.1
      = "Error: Failed to generate reverse diff" ∧
    (exec_patch_with_verification 3 empty_state "new.py" c8_diff none
        (.ran 0 "" "") ⟨true, []⟩ none (.ran 0 "" "") 0).1.changes = [] ∧
    (exec_patch_with_verification 3 empty_state "new.py" c8_diff none
        (.ran 0 "" "") ⟨true, []⟩ none (.ran 0 "" "") 0).1.created_files
        "new.py" = false ∧
    (applyPatchExec "new.py" c8_diff none (.ran 0 "" "")).1.success = true := by
  exact ⟨by decide, by decide, by decide, by decide⟩

/-- Claim C8 (amended): whenever an applied patch to a pre-existing file
passes verification, `retry_count[path]` is cleared, a
`ChangeOp (path, forward_diff, reverse_diff, step_id = patch_attempt_count,
timestamp)` is appended, `created_files` is unchanged, and the
stop-directing success message is returned; a verified patch that created a
new file is instead answered with a reverse-diff error and leaves the state
unchanged (so `created_files` is never populated). -/
theorem c8_accepted_patch_bookkeeping (maxR : Nat) (st : PatchSt)
    (path diff : String) (run : PatchRun) (verif : VerificationResult)
    (postC : Option String) (revertRun : PatchRun) (now : Nat) :
    (∀ c : String, st.retry_count path < maxR →
      (applyPatchExec path diff (some c) run).1.success = true →
      verif.passed = true →
      ∀ rd, (applyPatchExec path diff (some c) run).1.reverse_diff = some rd →
      ((exec_patch_with_verification maxR st path diff (some c) run verif
          postC revertRun now).1.retry_count path = 0 ∧
       (exec_patch_with_verification maxR st path diff (some c) run verif
          postC revertRun now).1.changes
         = st.changes ++ [⟨path, diff, rd, now, st.patch_attempt_count⟩] ∧
       (exec_patch_with_verification maxR st path diff (some c) run verif
          postC revertRun now).1.created_files = st.created_files ∧
       (exec_patch_with_verification maxR st path diff (some c) run verif
          postC revertRun now).2.1 = success_msg path)) ∧
    (st.retry_count path < maxR →
      (applyPatchExec path diff none run).1.success = true →
      verif.passed = true →
      ((exec_patch_with_verification maxR st path diff none run verif postC
          revertRun now).1.changes = st.changes ∧
       (exec_patch_with_verification maxR st path diff none run verif postC
          revertRun now).1.retry_count path = st.retry_count path ∧
       (exec_patch_with_verification maxR st path diff none run verif postC
          revertRun now).1.created_files = st.created_files ∧
       (exec_patch_with_verification maxR st path diff none run verif postC
          revertRun now).2.1 = "Error: Failed to generate reverse diff")) := by
  constructor
  · intro c h₁ h₂ h₃ rd hrd
    have hn : ¬maxR ≤ st.retry_count path := by omega
    refine ⟨?_, ?_, ?_, ?_⟩ <;>
      simp [exec_patch_with_verification, exec_patch_core, hn, h₂, h₃, hrd,
        updRetry]
  · intro h₁ h₂ h₃
    have hn : ¬maxR ≤ st.retry_count path := by omega
    have hrd := reverse_diff_none_of_new path diff run
    refine ⟨?_, ?_, ?_, ?_⟩ <;>
      simp [exec_patch_with_verification, exec_patch_core, hn, h₂, h₃, hrd]

/-- Witness for C8 at a concrete verified patch to an existing file. -/
theorem c8_accepted_patch_bookkeeping_witness :
    (exec_patch_with_verification 3 empty_state "f.py" c1_diff (some c1_pre)
        (.ran 0 "" "") ⟨true, []⟩ none (.ran 0 "" "") 7).1.changes
      = empty_state.changes ++
          [⟨"f.py", c1_diff, c1_rev, 7, empty_state.patch_attempt_count⟩] ∧
    (exec_patch_with_verification 3 empty_state "f.py" c1_diff (some c1_pre)
        (.ran 0 "" "") ⟨true, []⟩ none (.ran 0 "" "") 7).2.1
      = success_msg "f.py" :=
  ⟨((c8_accepted_patch_bookkeeping 3 empty_state "f.py" c1_diff
      (.ran 0 "" "") ⟨true, []⟩ none (.ran 0 "" "") 7).1 c1_pre (by decide)
      (by decide) (by decide) c1_rev (by decide)).2.1,
   ((c8_accepted_patch_bookkeeping 3 empty_state "f.py" c1_diff
      (.ran 0 "" "") ⟨true, []⟩ none (.ran 0 "" "") 7).1 c1_pre (by decide)
      (by decide) (by decide) c1_rev (by decide)).2.2.2⟩

theorem checkHunks_eq_none (hs : List (List FileOps.Line)) :
    checkHunks hs = none ↔
      ∀ h ∈ hs, is_well_formed_hunk h = true ∧
        has_sufficient_context h = true := by
  induction hs with
  | nil => simp [checkHunks]
  | cons h hs ih =>
    cases hw : is_well_formed_hunk h <;>
      cases hc : has_sufficient_context h <;>
        simp [checkHunks, hw, hc, ih]

theorem wf_false_of_bad (h : List FileOps.Line) (l : FileOps.Line)
    (hl : l ∈ h.drop 1) (hne : l ≠ [])
    (h₁ : l.head? ≠ some ' ') (h₂ : l.head? ≠ some '+')
    (h₃ : l.head? ≠ some '-') (h₄ : l.head? ≠ some '\\') :
    is_well_formed_hunk h = false := by
  cases h with
  | nil => rfl
  | cons hd body =>
    simp only [List.drop_succ_cons, List.drop_zero] at hl
    cases l with
    | nil => exact absurd rfl hne
    | cons ch cs =>
      simp only [List.head?_cons, ne_eq, Option.some.injEq] at h₁ h₂ h₃ h₄
      unfold is_well_formed_hunk
      have hall : body.all (fun l : FileOps.Line =>
          match l with
          | [] => true
          | c :: _ => (c == ' ') || (c == '+') || (c == '-') || (c == '\\'))
          = false := by
        rw [List.all_eq_false]
        refine ⟨ch :: cs, hl, ?_⟩
        simp_all
      simp [hall]

/-- Claim C5: the validator is sound — a diff containing a lazy-placeholder
pattern is rejected with the placeholder reason; a diff without `@@` (and no
placeholder) is rejected with the missing-hunk-header reason; a diff one of
whose extracted hunks contains a line whose first character is not space,
`+`, `-` or `\` is rejected with some explicit reason; and whenever
validation returns a reason, `ApplyPatchTool.execute` fails without ever
invoking the `patch` subprocess. -/
theorem c5_validator_soundness (d : String) :
    (hasLazyPattern d.data = true →
      validate_patch_with_reason d = some "contains lazy placeholder pattern") ∧
    (hasLazyPattern d.data = false → containsSeq "@@".data d.data = false →
      validate_patch_with_reason d = some "missing @@ hunk header") ∧
    ((∃ h ∈ extract_hunks (splitLines d.data), ∃ l ∈ h.drop 1, l ≠ [] ∧
        l.head? ≠ some ' ' ∧ l.head? ≠ some '+' ∧ l.head? ≠ some '-' ∧
        l.head? ≠ some '\\') →
      ∃ r, validate_patch_with_reason d = some r) ∧
    (∀ r, validate_patch_with_reason d = some r →
      ∀ (path : String) (fileContent : Option String) (run : PatchRun),
        (applyPatchExec path d fileContent run).2 = false ∧
        (applyPatchExec path d fileContent run).1.success = false) := by
  refine ⟨?_, ?_, ?_, ?_⟩
  · intro h
    simp [validate_patch_with_reason, h]
  · intro h₁ h₂
    simp [validate_patch_with_reason, h₁, h₂]
  · intro ⟨h, hm, l, hl, hne, h₁, h₂, h₃, h₄⟩
    by_cases hlz : hasLazyPattern d.data
    · exact ⟨"contains lazy placeholder pattern",
        by simp [validate_patch_with_reason, hlz]⟩
    · by_cases hcon : containsSeq "@@".data d.data
      · have hwf := wf_false_of_bad h l hl hne h₁ h₂ h₃ h₄
        have hemp : (extract_hunks (splitLines d.data)).isEmpty = false := by
          cases hh : extract_hunks (splitLines d.data) with
          | nil => rw [hh] at hm; exact absurd hm (List.not_mem_nil h)
          | cons a as => rfl
        have : checkHunks (extract_hunks (splitLines d.data)) ≠ none := by
          intro hchk
          have := ((checkHunks_eq_none _).mp hchk h hm).1
          rw [hwf] at this
          exact Bool.false_ne_true this
        cases hck : checkHunks (extract_hunks (splitLines d.data)) with
        | none => exact absurd hck this
        | some r =>
          exact ⟨r, by simp [validate_patch_with_reason, hlz, hcon, hemp, hck]⟩
      · exact ⟨"missing @@ hunk header",
          by simp [validate_patch_with_reason, hlz, hcon]⟩
  · intro r hr path fileContent run
    simp [applyPatchExec, hr]

/-- Witness for C5 at three concrete rejected diffs. -/
theorem c5_validator_soundness_witness :
    validate_patch_with_reason "@@ -1,5 +1,5 @@\n ctx\n-x\n+y\n ... rest of file"
      = some "contains lazy placeholder pattern" ∧
    validate_patch_with_reason "hello world"
      = some "missing @@ hunk header" ∧
    (∃ r, validate_patch_with_reason "@@ -1,2 +1,2 @@\nbad line\n ctx" = some r) ∧
    (applyPatchExec "a.py" "hello world" none (.ran 0 "" "")).2 = false :=
  ⟨(c5_validator_soundness "@@ -1,5 +1,5 @@\n ctx\n-x\n+y\n ... rest of file").1
      (by decide),
   (c5_validator_soundness "hello world").2.1 (by decide) (by decide),
   (c5_validator_soundness "@@ -1,2 +1,2 @@\nbad line\n ctx").2.2.1
      ⟨["@@ -1,2 +1,2 @@".data, "bad line".data, " ctx".data], by decide,
        "bad line".data, by decide, by decide, by decide, by decide,
        by decide, by decide⟩,
   ((c5_validator_soundness "hello world").2.2.2 "missing @@ hunk header"
      (by decide) "a.py" none (.ran 0 "" "")).1⟩

theorem extractLoop_nil (lines : List FileOps.Line)
    (h : ∀ l ∈ lines, startsWith "@@".data l = false) :
    extractLoop lines [] false = [] := by
  induction lines with
  | nil => rfl
  | cons l rest ih =>
    have h0 := h l (List.mem_cons_self l rest)
    simp only [extractLoop, h0, Bool.false_eq_true, if_false]
    exact ih fun l' hl' => h l' (List.mem_cons_of_mem _ hl')

theorem creation_header_accepted (hd : FileOps.Line)
    (h : startsWith "@@ -0,0".data hd = true) :
    (startsWith "@@".data hd &&
      (containsSeq "-0,0".data hd || containsSeq "@@ -0,0".data hd)) = true := by
  have hp : "@@ -0,0".data <+: hd := (startsWith_iff _ _).mp h
  have h1 : startsWith "@@".data hd = true := by
    rw [startsWith_iff]
    exact List.IsPrefix.trans (by decide) hp
  have h2 : containsSeq "-0,0".data hd = true := by
    rw [containsSeq_iff]
    exact List.IsInfix.trans (by decide) hp.isInfix
  simp [h1, h2]

theorem context_accepted (h : List FileOps.Line)
    (hwf : is_well_formed_hunk h = true)
    (hd : startsWith "@@ -0,0".data (h.headD []) = true ∨
      3 ≤ (context_counts (h.drop 1)).context_before ∨
      3 ≤ (context_counts (h.drop 1)).context_after ∨
      ((context_counts (h.drop 1)).has_deletions = false ∧
        1 ≤ (context_counts (h.drop 1)).context_before)) :
    has_sufficient_context h = true := by
  cases h with
  | nil => exact absurd hwf (by simp [is_well_formed_hunk])
  | cons header body =>
    simp only [List.headD_cons, List.drop_succ_cons, List.drop_zero] at hd
    rcases hd with hcre | hcb | hca | ⟨hnd, hcb1⟩
    · simp [has_sufficient_context, creation_header_accepted header hcre]
    · by_cases hck : (startsWith "@@".data header &&
        (containsSeq "-0,0".data header ||
          containsSeq "@@ -0,0".data header)) = true
      · simp [has_sufficient_context, hck]
      · simp [has_sufficient_context, hck, hcb]
    · by_cases hck : (startsWith "@@".data header &&
        (containsSeq "-0,0".data header ||
          containsSeq "@@ -0,0".data header)) = true
      · simp [has_sufficient_context, hck]
      · simp [has_sufficient_context, hck, hca]
    · by_cases hck : (startsWith "@@".data header &&
        (containsSeq "-0,0".data header ||
          containsSeq "@@ -0,0".data header)) = true
      · simp [has_sufficient_context, hck]
      · simp [has_sufficient_context, hck, hnd, hcb1]

/-- Claim C6 counterexample: a diff whose only hunk has well-formed line
prefixes and three context lines before its first change is nonetheless
rejected, because one context line contains a `# TODO` comment that matches
a lazy-placeholder pattern. -/
theorem c6_counterexample :
    validate_patch_with_reason c6_diff
      = some "contains lazy placeholder pattern" ∧
    (∀ h ∈ extract_hunks (splitLines c6_diff.data),
      is_well_formed_hunk h = true ∧
      3 ≤ (context_counts (h.drop 1)).context_before) := by
  exact ⟨by decide, by decide⟩

/-- Claim C6 (amended): any diff that contains no lazy-placeholder pattern,
has at least one hunk, and all of whose hunks have well-formed line prefixes
and sufficient context in the claimed sense — at least 3 context lines
before the first change or after the last change, or a file-creation header
beginning `@@ -0,0`, or an append-only hunk (no deletions) with at least one
leading context line — validates successfully. -/
theorem c6_completeness (d : String)
    (hlazy : hasLazyPattern d.data = false)
    (hne : extract_hunks (splitLines d.data) ≠ [])
    (hok : ∀ h ∈ extract_hunks (splitLines d.data),
      is_well_formed_hunk h = true ∧
      (startsWith "@@ -0,0".data (h.headD []) = true ∨
        3 ≤ (context_counts (h.drop 1)).context_before ∨
        3 ≤ (context_counts (h.drop 1)).context_after ∨
        ((context_counts (h.drop 1)).has_deletions = false ∧
          1 ≤ (context_counts (h.drop 1)).context_before))) :
    validate_patch_with_reason d = none := by
  have hcon : containsSeq "@@".data d.data = true := by
    by_contra hc
    apply hne
    apply extractLoop_nil
    intro l hl
    by_contra hsw
    have hpre : "@@".data <+: l :=
      (startsWith_iff _ _).mp (by
        cases hx : startsWith "@@".data l
        · exact absurd hx hsw
        · rfl)
    exact hc (by
      rw [containsSeq_iff]
      exact hpre.isInfix.trans (mem_splitLines_contains d.data l hl))
  have hemp : (extract_hunks (splitLines d.data)).isEmpty = false := by
    cases hh : extract_hunks (splitLines d.data) with
    | nil => exact absurd hh hne
    | cons a as => rfl
  have hchk : checkHunks (extract_hunks (splitLines d.data)) = none :=
    (checkHunks_eq_none _).mpr fun h hm =>
      ⟨(hok h hm).1, context_accepted h (hok h hm).1 (hok h hm).2⟩
  simp [validate_patch_with_reason, hlazy, hcon, hemp, hchk]

/-- Witness for C6 at a concrete well-formed diff with three leading context
lines. -/
theorem c6_completeness_witness :
    validate_patch_with_reason
      "@@ -1,5 +1,5 @@\n line 1\n line 2\n line 3\n-old line\n+new line"
      = none :=
  c6_completeness
    "@@ -1,5 +1,5 @@\n line 1\n line 2\n line 3\n-old line\n+new line"
    (by decide) (by decide) (by decide)

/-- Claim C9, counterexample to the literal-substring reading: the SQL part
of `find_affected_tests` matches sources with SQLite `LIKE '%pattern%'`,
which is ASCII case-insensitive, so with a dependency edge from
`Tests/test_auth.py` (capital `T`) onto the modified `src/auth.py` and
pattern `tests/`, the program returns `["Tests/test_auth.py"]` even though
no test pattern occurs in `Tests/test_auth.py` (nor in `src/auth.py`) as a
substring — the claim's union is empty. -/
theorem c9_counterexample :
    find_affected_tests [("Tests/test_auth.py", "src/auth.py")]
        ["src/auth.py"] ["tests/"] = ["Tests/test_auth.py"] ∧
    ¬ ("tests/".data <:+: "Tests/test_auth.py".data) ∧
    ¬ ("tests/".data <:+: "src/auth.py".data) := by
  refine ⟨by decide, fun h => ?_, fun h => ?_⟩
  · exact absurd ((containsSeq_iff "tests/".data "Tests/test_auth.py".data).2 h)
      (by decide)
  · exact absurd ((containsSeq_iff "tests/".data "src/auth.py".data).2 h)
      (by decide)

/-- Claim C9 (amended): for every non-empty list of modified files and
non-empty list of test patterns (with an empty pattern list the generated
SQL is malformed and sqlite3 raises), `find_affected_tests` returns exactly
the sorted duplicate-free union of (a) sources of dependency edges onto a
modified file whose own path matches some test pattern under SQLite `LIKE`
`'%pattern%'` (ASCII case-insensitive, `%` and `_` interpreted as wildcards)
and (b) modified files whose path contains a test pattern as a literal
case-sensitive substring; in particular the S4 scenario — an index where
`tests/test_auth.py` imports `src.auth` and `tests/test_other.py` imports
something else — yields exactly `["tests/test_auth.py"]` for
`find_affected_tests(["src/auth.py"], ["tests/"])`. -/
theorem c9_affected_tests :
    (∀ (deps : List (String × String)) (mods tps : List String),
      mods ≠ [] → tps ≠ [] →
      (∀ x, x ∈ find_affected_tests deps mods tps ↔
        ((∃ e, (e ∈ deps ∧ e.2 ∈ mods ∧
            ∃ p ∈ tps, likeMatch ('%' :: (p.data ++ ['%'])) e.1.data = true) ∧
            e.1 = x) ∨
          (x ∈ mods ∧ ∃ p ∈ tps, p.data <:+: x.data))) ∧
      List.Sorted strLe (find_affected_tests deps mods tps) ∧
      (find_affected_tests deps mods tps).Nodup) ∧
    find_affected_tests
        [("tests/test_auth.py", "src/auth.py"),
          ("tests/test_other.py", "src/other.py")]
        ["src/auth.py"] ["tests/"]
      = ["tests/test_auth.py"] := by
  constructor
  · intro deps mods tps hne _hnt
    have hne' : mods.isEmpty = false := by
      cases mods with
      | nil => exact absurd rfl hne
      | cons a as => rfl
    have hres : find_affected_tests deps mods tps = List.insertionSort strLe
        ((((deps.filter fun e => decide (e.2 ∈ mods) &&
            tps.any fun p =>
              likeMatch ('%' :: (p.data ++ ['%'])) e.1.data).map Prod.fst) ++
          (mods.filter fun m => tps.any fun p =>
            containsSeq p.data m.data)).dedup) := by
      simp only [find_affected_tests, hne', Bool.false_eq_true, if_false]
    refine ⟨?_, ?_, ?_⟩
    · intro x
      rw [hres, List.Perm.mem_iff (List.perm_insertionSort _ _)]
      simp only [List.mem_dedup, List.mem_append, List.mem_map,
        List.mem_filter, Bool.and_eq_true, decide_eq_true_eq,
        List.any_eq_true, containsSeq_iff]
    · rw [hres]
      exact List.sorted_insertionSort strLe _
    · rw [hres]
      exact (List.perm_insertionSort strLe _).symm.nodup (List.nodup_dedup _)
  · decide

/-- Witness for C9: membership, sortedness and distinctness at the S4
index. -/
theorem c9_affected_tests_witness :
    ("tests/test_auth.py" ∈ find_affected_tests
        [("tests/test_auth.py", "src/auth.py"),
          ("tests/test_other.py", "src/other.py")]
        ["src/auth.py"] ["tests/"] ↔
      ((∃ e, (e ∈ ([("tests/test_auth.py", "src/auth.py"),
          ("tests/test_other.py", "src/other.py")] :
            List (String × String)) ∧
        e.2 ∈ ["src/auth.py"] ∧
          ∃ p ∈ ["tests/"],
            likeMatch ('%' :: (p.data ++ ['%'])) e.1.data = true) ∧
          e.1 = "tests/test_auth.py") ∨
        ("tests/test_auth.py" ∈ ["src/auth.py"] ∧
          ∃ p ∈ ["tests/"], p.data <:+: "tests/test_auth.py".data))) ∧
    (find_affected_tests
        [("tests/test_auth.py", "src/auth.py"),
          ("tests/test_other.py", "src/other.py")]
        ["src/auth.py"] ["tests/"]).Nodup :=
  ⟨((c9_affected_tests.1
      [("tests/test_auth.py", "src/auth.py"),
        ("tests/test_other.py", "src/other.py")]
      ["src/auth.py"] ["tests/"] (by decide) (by decide)).1
      "tests/test_auth.py"),
   (c9_affected_tests.1
      [("tests/test_auth.py", "src/auth.py"),
        ("tests/test_other.py", "src/other.py")]
      ["src/auth.py"] ["tests/"] (by decide) (by decide)).2.2⟩

end SpanCLI
